import Mathlib

/-!
Verification development for the registry-certificate PDF parser
(`src/types/registry.ts` and `src/lib/pdf-parser.ts`).

The parser is a set of JavaScript regular-expression rules over the text
extracted from a PDF.  We embed the text level: strings are `List Char`,
the PDF-library extraction step (an IO boundary) is an `Option (List Char)`
input, and each regular expression of the source is transcribed into a
small regex AST (`Re`) executed by a backtracking matcher (`matchR`) with
JavaScript semantics (leftmost match, ordered alternation, greedy/lazy
quantifiers, zero-width lookahead, `$` = end of input, capture groups).
JavaScript numbers appearing as parsed amounts are embedded as `JsNum`
(`parseInt` may produce `NaN`); float-valued areas are kept as their
matched digit strings (`JsFloat`), since no logic of the program inspects
their numeric value.
-/

set_option maxRecDepth 4096

/-- Characters of a string literal. -/
def chars (s : String) : List Char := s.data

/-- JavaScript `\s` for the characters that occur in registry text. -/
def jsWs (c : Char) : Bool :=
  c = ' ' || c = '\n' || c = '\t' || c = '\r' || c = '\x0b' || c = '\x0c'

/-- Decimal digit class `\d`. -/
def isDigitC (c : Char) : Bool := c.isDigit

/-- The class `[\d,]`. -/
def isDigitComma (c : Char) : Bool := c.isDigit || c = ','

/-- The class `[\d,.]`. -/
def isDigitCommaDot (c : Char) : Bool := c.isDigit || c = ',' || c = '.'

/-- The class `[\d.]`. -/
def isDigitDot (c : Char) : Bool := c.isDigit || c = '.'

/-- The class `[\d-]`. -/
def isDigitDash (c : Char) : Bool := c.isDigit || c = '-'

/-- `[\s\S]` (any character, used with lazy star in the source patterns). -/
def anyChar (_ : Char) : Bool := true

/-- JavaScript `.` without the `s` flag (no line terminators). -/
def dotNoNl (c : Char) : Bool := !(c = '\n' || c = '\r')

/-- `[^\n]`. -/
def notNl (c : Char) : Bool := c ≠ '\n'

/-- `[^\d]`. -/
def notDigit (c : Char) : Bool := !c.isDigit

/-- `[^\d\n]`. -/
def notDigitNl (c : Char) : Bool := !c.isDigit && c ≠ '\n'

/-- `[^\n채근]` (used in the debtor pattern). -/
def notNlChaeGeun (c : Char) : Bool := c ≠ '\n' && c ≠ '채' && c ≠ '근'

/-- `[^\n임채공]` (used in the mortgagee pattern). -/
def notNlImChaeGong (c : Char) : Bool :=
  c ≠ '\n' && c ≠ '임' && c ≠ '채' && c ≠ '공'

/-- JavaScript `String.prototype.includes`. -/
def strIncludes : List Char → List Char → Bool
  | h, n =>
    if n.isPrefixOf h then true
    else
      match h with
      | [] => false
      | _ :: t => strIncludes t n

/-- JavaScript `String.prototype.trim`. -/
def jsTrim (l : List Char) : List Char :=
  ((l.dropWhile jsWs).reverse.dropWhile jsWs).reverse

/-- Value of a digit string read in base 10. -/
def digitsToNat (l : List Char) : Nat :=
  l.foldl (fun acc c => acc * 10 + (c.toNat - 48)) 0

/-- A JavaScript number produced by `parseInt`: either `NaN` or an integer. -/
inductive JsNum where
  | nan : JsNum
  | int (n : Nat) : JsNum
deriving DecidableEq, Repr

/-- `parseInt(s, 10)` on a string of decimal digits: `NaN` when empty. -/
def jsParseInt (l : List Char) : JsNum :=
  if l = [] then JsNum.nan else JsNum.int (digitsToNat l)

/-- A JavaScript float kept as the digit string `parseFloat` was applied to;
no logic of the program inspects the numeric value of an area. -/
structure JsFloat where
  repr : List Char
deriving DecidableEq, Repr

/-! ## Regex AST and the backtracking matcher -/

/-- Abstract syntax of the regular-expression fragment the source uses. -/
inductive Re where
  | eps : Re
  | cls (p : Char → Bool) : Re
  | lit (l : List Char) : Re
  | seq (a b : Re) : Re
  | alt (a b : Re) : Re
  | star (a : Re) (greedy : Bool) : Re
  | group (n : Nat) (a : Re) : Re
  | look (a : Re) : Re
  | eos : Re

/-- Capture environment: newest bindings first. -/
def Caps := List (Nat × List Char)

/-- Record group `n` as having captured `v`. -/
def capInsert (n : Nat) (v : List Char) (c : Caps) : Caps := (n, v) :: c

/-- Read the capture of group `n`. -/
def capLookup (n : Nat) (c : Caps) : Option (List Char) :=
  (List.find? (fun p => p.1 == n) c).map (fun p => p.2)

/-- Backtracking matcher in continuation-passing style, mirroring the
JavaScript engine: ordered alternation, greedy and lazy stars with the
empty-iteration guard, zero-width lookahead whose captures do not escape,
`$` as end of input.  `fuel` bounds the dynamic nesting depth and is chosen
generously by the callers. -/
def matchR : Nat → Re → List Char → Caps →
    (List Char → Caps → Option (List Char × Caps)) → Option (List Char × Caps)
  | 0, _, _, _, _ => none
  | fuel + 1, re, s, c, k =>
    match re with
    | .eps => k s c
    | .cls p =>
      match s with
      | [] => none
      | x :: rest => if p x then k rest c else none
    | .lit l => if l.isPrefixOf s then k (s.drop l.length) c else none
    | .seq a b => matchR fuel a s c (fun s1 c1 => matchR fuel b s1 c1 k)
    | .alt a b =>
      (matchR fuel a s c k).orElse (fun _ => matchR fuel b s c k)
    | .star a g =>
      if g then
        (matchR fuel a s c (fun s1 c1 =>
          if s1.length = s.length then none
          else matchR fuel (.star a g) s1 c1 k)).orElse (fun _ => k s c)
      else
        (k s c).orElse (fun _ =>
          matchR fuel a s c (fun s1 c1 =>
            if s1.length = s.length then none
            else matchR fuel (.star a g) s1 c1 k))
    | .group n a =>
      matchR fuel a s c (fun s1 c1 =>
        k s1 (capInsert n (s.take (s.length - s1.length)) c1))
    | .look a =>
      match matchR fuel a s c (fun s1 c1 => some (s1, c1)) with
      | some _ => k s c
      | none => none
    | .eos =>
      match s with
      | [] => k s c
      | _ => none

/-- `a?` (greedy optional). -/
def ropt (a : Re) : Re := .alt a .eps

/-- `a+` (greedy plus) for a character class. -/
def rplus (p : Char → Bool) : Re := .seq (.cls p) (.star (.cls p) true)

/-- `\s*`. -/
def rws : Re := .star (.cls jsWs) true

/-- Ordered alternation of literal strings, as in `(w1|w2|…)`. -/
def raltsLits : List (List Char) → Re
  | [] => .cls (fun _ => false)
  | l :: rest => .alt (.lit l) (raltsLits rest)

/-- Leftmost match: scan start positions left to right, at each position
running the matcher on the whole suffix.  Returns
(matched text, captures, remainder after the match). -/
def reFirst (re : Re) (s : List Char) : Option (List Char × Caps × List Char) :=
  match matchR (s.length + 100) re s [] (fun s1 c1 => some (s1, c1)) with
  | some (s1, c1) => some (s.take (s.length - s1.length), c1, s1)
  | none =>
    match s with
    | [] => none
    | _ :: t => reFirst re t

/-- First match's capture of group `n` (JavaScript `text.match(re)?.[n]`). -/
def reGroup (re : Re) (n : Nat) (s : List Char) : Option (List Char) :=
  match reFirst re s with
  | none => none
  | some (_, cps, _) => capLookup n cps

/-- Whole text of the first match (JavaScript `text.match(re)?.[0]`). -/
def reMatch0 (re : Re) (s : List Char) : Option (List Char) :=
  match reFirst re s with
  | none => none
  | some (m, _, _) => some m

/-- The loop `while ((match = pattern.exec(text)) !== null)` of a global
regex: successive matches, each search resuming at the previous match end. -/
def execLoop (re : Re) : Nat → List Char → List (List Char × Caps)
  | 0, _ => []
  | fuel + 1, s =>
    match reFirst re s with
    | none => []
    | some (m, cps, rest) =>
      if m.isEmpty then [] else (m, cps) :: execLoop re fuel rest

/-! ## Data model (`src/types/registry.ts`) -/

/-- `propertyType` of the source: the interface admits exactly
`'building' | 'aggregate_building'`. -/
inductive PropertyType where
  | building : PropertyType
  | aggregate_building : PropertyType
deriving DecidableEq, Repr

/-- `FloorArea`. -/
structure FloorArea where
  floor : List Char
  area : JsFloat
  isExcluded : Bool
deriving DecidableEq, Repr

/-- `LandRight` (declared in the interface; never produced by the parser). -/
structure LandRight where
  address : List Char
  landType : List Char
  area : JsFloat
deriving DecidableEq, Repr

/-- `OwnerInfo`. -/
structure OwnerInfo where
  name : List Char
  residentNumber : Option (List Char)
  address : Option (List Char)
  share : Option (List Char)
deriving DecidableEq, Repr

/-- `CreditorInfo`. -/
structure CreditorInfo where
  name : List Char
  residentNumber : Option (List Char)
  address : Option (List Char)
deriving DecidableEq, Repr

/-- `LeaseTermInfo`. -/
structure LeaseTermInfo where
  contractDate : List Char
  residentRegistrationDate : Option (List Char)
  possessionStartDate : Option (List Char)
  fixedDate : Option (List Char)
deriving DecidableEq, Repr

/-- `LesseeInfo`. -/
structure LesseeInfo where
  name : List Char
  residentNumber : Option (List Char)
  address : Option (List Char)
deriving DecidableEq, Repr

/-- `RegistryTitleInfo`.  The TypeScript field `structure` is a Lean keyword
and is embedded as `structure_`. -/
structure RegistryTitleInfo where
  uniqueNumber : List Char
  propertyType : PropertyType
  address : List Char
  roadAddress : Option (List Char)
  buildingName : Option (List Char)
  structure_ : List Char
  roofType : List Char
  floors : Nat
  buildingType : List Char
  areas : List FloorArea
  landRights : Option (List LandRight)
  exclusiveArea : Option JsFloat
  landRightRatio : Option (List Char)
deriving DecidableEq, Repr

/-- `SectionAEntry`.  The fields of the interface are kept; in addition the
parser's object literal carries `owner` and `cancellationInfo`, which are
absent from the declared interface but present at runtime, so they are
embedded as well.  The declared field `owners` is never set by the parser
(its object literal omits it); an omitted optional field reads as
`undefined`, which the only consumer (`maskForDemo`) coalesces with `?? []`,
so it is embedded directly as a (possibly empty) list. -/
structure SectionAEntry where
  rankNumber : List Char
  registrationType : List Char
  receiptDate : List Char
  receiptNumber : List Char
  registrationCause : List Char
  registrationCauseDate : Option (List Char)
  owners : List OwnerInfo
  creditor : Option CreditorInfo
  claimAmount : Option JsNum
  restriction : Option (List Char)
  isCancelled : Bool
  cancelledByRank : Option (List Char)
  cancellationDate : Option (List Char)
  cancellationCause : Option (List Char)
  cancelsRank : Option (List Char)
  remarks : Option (List Char)
  owner : Option OwnerInfo
  cancellationInfo : Option (List Char)
deriving DecidableEq, Repr

/-- `SectionBEntry`. -/
structure SectionBEntry where
  rankNumber : List Char
  registrationType : List Char
  receiptDate : List Char
  receiptNumber : List Char
  registrationCause : List Char
  registrationCauseDate : Option (List Char)
  maxClaimAmount : Option JsNum
  debtor : Option OwnerInfo
  mortgagee : Option CreditorInfo
  depositAmount : Option JsNum
  monthlyRent : Option JsNum
  leaseTerm : Option LeaseTermInfo
  lessee : Option LesseeInfo
  leaseArea : Option (List Char)
  jeonseDeposit : Option JsNum
  jeonseRightHolder : Option CreditorInfo
  isCancelled : Bool
  cancellationInfo : Option (List Char)
deriving DecidableEq, Repr

/-- `TradeListItem` (declared; never produced by the parser). -/
structure TradeListItem where
  serial_number : List Char
  property_description : List Char
  rank_number : List Char
  registration_cause : List Char
  correction_cause : List Char
deriving DecidableEq, Repr

/-- `TradeList` (declared; never produced by the parser). -/
structure TradeList where
  list_number : List Char
  trade_amount : Option JsNum
  items : List TradeListItem
deriving DecidableEq, Repr

/-- `OwnershipStatus` (declared; never produced by the parser). -/
structure OwnershipStatus where
  ownerName : List Char
  residentNumber : Option (List Char)
  finalShare : List Char
  address : List Char
  rankNumber : List Char
deriving DecidableEq, Repr

/-- `RegistrySummary` (declared; never produced by the parser). -/
structure RegistrySummary where
  ownershipStatus : List OwnershipStatus
  ownershipOtherMatters : List SectionAEntry
  mortgagesAndJeonse : List SectionBEntry
deriving DecidableEq, Repr

/-- `RegistryData`, the full parse result. -/
structure RegistryData where
  uniqueNumber : List Char
  propertyType : PropertyType
  propertyAddress : List Char
  titleInfo : RegistryTitleInfo
  sectionA : List SectionAEntry
  sectionB : List SectionBEntry
  trade_lists : Option (List TradeList)
  summary : Option RegistrySummary
  rawText : List Char
  parseDate : List Char
deriving DecidableEq, Repr

/-- Modelled from the spec: the spec's `RegistryDocument` carries an
`errors[]` list of recorded non-fatal conditions.  The source interface
`RegistryData` (src/unnamed/part_000:511-522) has no such field and the
parser records no error anywhere, so the collection of errors recorded on a
parse result is constantly empty. -/
def registryErrors (_ : RegistryData) : List (List Char) := []

/-- Modelled from the spec: the spec's `property_type` has three values,
`land | building | aggregate_building`.  The source union type has only the
latter two; this enumeration and `toSpecPropertyType` relate them. -/
inductive PropertyTypeSpec where
  | land : PropertyTypeSpec
  | building : PropertyTypeSpec
  | aggregate_building : PropertyTypeSpec
deriving DecidableEq, Repr

/-- Injection of the source property type into the spec's three-valued one. -/
def toSpecPropertyType : PropertyType → PropertyTypeSpec
  | .building => .building
  | .aggregate_building => .aggregate_building

/-! ## Regular expressions of `pdf-parser.ts`, transcribed -/

/-- `/금\s*([\d,]+)\s*원/` (in `parseAmount`). -/
def reAmount : Re :=
  .seq (.lit (chars "금"))
    (.seq rws
      (.seq (.group 1 (rplus isDigitComma))
        (.seq rws (.lit (chars "원")))))

/-- `parseAmount` (src/unnamed/part_000:577-584). -/
def parseAmount (text : List Char) : Option JsNum :=
  if text = [] then none
  else
    match reFirst reAmount text with
    | none => none
    | some (_, cps, _) =>
      some (jsParseInt (((capLookup 1 cps).getD []).filter (fun c => c ≠ ',')))

/-- `/(지하?\d+층|\d+층|옥탑\d+층)\s*([\d,.]+)\s*㎡/` (in `parseFloorAreas`). -/
def reFloorLine : Re :=
  .seq (.group 1
      (.alt (.seq (.lit (chars "지"))
              (.seq (ropt (.lit (chars "하")))
                (.seq (rplus isDigitC) (.lit (chars "층")))))
        (.alt (.seq (rplus isDigitC) (.lit (chars "층")))
          (.seq (.lit (chars "옥탑"))
            (.seq (rplus isDigitC) (.lit (chars "층")))))))
    (.seq rws
      (.seq (.group 2 (rplus isDigitCommaDot))
        (.seq rws (.lit (chars "㎡")))))

/-- JavaScript `text.split('\n')`. -/
def splitLines : List Char → List (List Char)
  | [] => [[]]
  | c :: t =>
    if c = '\n' then [] :: splitLines t
    else
      match splitLines t with
      | [] => [[c]]
      | h :: r => (c :: h) :: r

/-- `parseFloorAreas` (src/unnamed/part_000:596-613). -/
def parseFloorAreas (text : List Char) : List FloorArea :=
  (splitLines text).filterMap (fun line =>
    match reFirst reFloorLine line with
    | none => none
    | some (_, cps, _) =>
      some { floor := (capLookup 1 cps).getD []
             area := ⟨((capLookup 2 cps).getD []).filter (fun c => c ≠ ',')⟩
             isExcluded := strIncludes line (chars "연면적제외") })

/-- `/고유번호\s*([\d-]+)/` (in `extractUniqueNumber`). -/
def reUniqueNumber : Re :=
  .seq (.lit (chars "고유번호")) (.seq rws (.group 1 (rplus isDigitDash)))

/-- `extractUniqueNumber` (src/unnamed/part_000:616-619). -/
def extractUniqueNumber (text : List Char) : List Char :=
  (reGroup reUniqueNumber 1 text).getD []

/-- `detectPropertyType` (src/unnamed/part_000:622-627). -/
def detectPropertyType (text : List Char) : PropertyType :=
  if strIncludes text (chars "집합건물") then .aggregate_building else .building

/-- `/\[(?:건물|집합건물)\]\s*(.+?)(?:\n|【)/` (in `extractAddress`; the dot
is without the `s` flag). -/
def reAddress : Re :=
  .seq (.lit (chars "["))
    (.seq (.alt (.lit (chars "건물")) (.lit (chars "집합건물")))
      (.seq (.lit (chars "]"))
        (.seq rws
          (.seq (.group 1 (.seq (.cls dotNoNl) (.star (.cls dotNoNl) false)))
            (.alt (.lit (chars "\n")) (.lit (chars "【")))))))

/-- `extractAddress` (src/unnamed/part_000:630-634). -/
def extractAddress (text : List Char) : List Char :=
  match reGroup reAddress 1 text with
  | some g => jsTrim g
  | none => []

/-- `/소재지번[,\s]*건물명칭 및 번호.*?\n.*?\n?\s*([^\n]+)/s`. -/
def reTitleAddress : Re :=
  .seq (.lit (chars "소재지번"))
    (.seq (.star (.cls (fun c => c = ',' || jsWs c)) true)
      (.seq (.lit (chars "건물명칭 및 번호"))
        (.seq (.star (.cls anyChar) false)
          (.seq (.lit (chars "\n"))
            (.seq (.star (.cls anyChar) false)
              (.seq (ropt (.lit (chars "\n")))
                (.seq rws (.group 1 (rplus notNl)))))))))

/-- `/\[도로명주소\]\s*\n?\s*([^\n]+)/`. -/
def reRoadAddress : Re :=
  .seq (.lit (chars "[도로명주소]"))
    (.seq rws
      (.seq (ropt (.lit (chars "\n")))
        (.seq rws (.group 1 (rplus notNl)))))

/-- `/(철근콘크리트구조|철골철근콘크리트구조|목구조|벽돌구조|블록구조|경량철골구조)/`. -/
def reStructure : Re :=
  .group 1 (raltsLits
    [chars "철근콘크리트구조", chars "철골철근콘크리트구조", chars "목구조",
     chars "벽돌구조", chars "블록구조", chars "경량철골구조"])

/-- `/\(철근\)?콘크리트\s*지붕|\(기와\)\s*지붕|\(슬레이트\)\s*지붕/`.
In the first alternative the `?` quantifies only the escaped closing
parenthesis, exactly as in the source pattern. -/
def reRoof : Re :=
  .alt (.seq (.lit (chars "(철근"))
          (.seq (ropt (.lit (chars ")")))
            (.seq (.lit (chars "콘크리트"))
              (.seq rws (.lit (chars "지붕"))))))
    (.alt (.seq (.lit (chars "(기와)")) (.seq rws (.lit (chars "지붕"))))
      (.seq (.lit (chars "(슬레이트)")) (.seq rws (.lit (chars "지붕")))))

/-- `/(\d+)층/`. -/
def reFloors : Re := .seq (.group 1 (rplus isDigitC)) (.lit (chars "층"))

/-- `/(아파트|오피스텔|다세대주택|다가구주택|단독주택|근린생활시설|제2종근린생활시설|상가|업무시설|주택)/`. -/
def reBuildingType : Re :=
  .group 1 (raltsLits
    [chars "아파트", chars "오피스텔", chars "다세대주택", chars "다가구주택",
     chars "단독주택", chars "근린생활시설", chars "제2종근린생활시설",
     chars "상가", chars "업무시설", chars "주택"])

/-- `/대지권비율\s*\n?\s*(\d+)분의\s*([\d.]+)/`. -/
def reLandRatio : Re :=
  .seq (.lit (chars "대지권비율"))
    (.seq rws
      (.seq (ropt (.lit (chars "\n")))
        (.seq rws
          (.seq (.group 1 (rplus isDigitC))
            (.seq (.lit (chars "분의"))
              (.seq rws (.group 2 (rplus isDigitDot))))))))

/-- `/전유부분.*?건물의 표시.*?([\d,.]+)\s*㎡/s`. -/
def reExclusive : Re :=
  .seq (.lit (chars "전유부분"))
    (.seq (.star (.cls anyChar) false)
      (.seq (.lit (chars "건물의 표시"))
        (.seq (.star (.cls anyChar) false)
          (.seq (.group 1 (rplus isDigitCommaDot))
            (.seq rws (.lit (chars "㎡")))))))

/-- `parseTitleSection` (src/unnamed/part_000:637-697). -/
def parseTitleSection (text : List Char) : RegistryTitleInfo :=
  let propertyType := detectPropertyType text
  { uniqueNumber := extractUniqueNumber text
    propertyType := propertyType
    address := match reGroup reTitleAddress 1 text with
      | some g => jsTrim g
      | none => []
    roadAddress := (reGroup reRoadAddress 1 text).map jsTrim
    buildingName := none
    structure_ := (reGroup reStructure 1 text).getD []
    roofType := (reMatch0 reRoof text).getD []
    floors := match reGroup reFloors 1 text with
      | some g => digitsToNat g
      | none => 0
    buildingType := (reGroup reBuildingType 1 text).getD []
    areas := parseFloorAreas text
    landRights := none
    exclusiveArea :=
      if propertyType = .aggregate_building then
        (reGroup reExclusive 1 text).map
          (fun g => ⟨g.filter (fun c => c ≠ ',')⟩)
      else none
    landRightRatio :=
      if propertyType = .aggregate_building then
        match reFirst reLandRatio text with
        | some (_, cps, _) =>
          some ((capLookup 1 cps).getD [] ++ chars "분의 " ++
                (capLookup 2 cps).getD [])
        | none => none
      else none }

/-! ## Section A and B row parsing -/

/-- Registration-type keywords of the section-A row pattern, in source
order: `소유권보존|소유권이전|가압류|압류|경매개시결정|임의경매개시결정|강제경매개시결정|가처분|등기말소|소유권이전등기말소`. -/
def kwListA : List (List Char) :=
  [chars "소유권보존", chars "소유권이전", chars "가압류", chars "압류",
   chars "경매개시결정", chars "임의경매개시결정", chars "강제경매개시결정",
   chars "가처분", chars "등기말소", chars "소유권이전등기말소"]

/-- Registration-type keywords of the section-B row pattern, in source
order: `근저당권설정|근저당권이전|근질권설정|주택임차권|전세권설정|저당권설정|임차권설정`. -/
def kwListB : List (List Char) :=
  [chars "근저당권설정", chars "근저당권이전", chars "근질권설정",
   chars "주택임차권", chars "전세권설정", chars "저당권설정",
   chars "임차권설정"]

/-- `\d+(?:-\d+)?` — a rank number with optional sub-rank. -/
def reRank : Re :=
  .seq (rplus isDigitC) (ropt (.seq (.lit (chars "-")) (rplus isDigitC)))

/-- `【\s*갑\s*구\s*】`. -/
def reHeadingA : Re :=
  .seq (.lit (chars "【"))
    (.seq rws
      (.seq (.lit (chars "갑"))
        (.seq rws
          (.seq (.lit (chars "구")) (.seq rws (.lit (chars "】")))))))

/-- `【\s*을\s*구\s*】`. -/
def reHeadingB : Re :=
  .seq (.lit (chars "【"))
    (.seq rws
      (.seq (.lit (chars "을"))
        (.seq rws
          (.seq (.lit (chars "구")) (.seq rws (.lit (chars "】")))))))

/-- `【\s*매\s*매\s*목\s*록\s*】`. -/
def reHeadingTrade : Re :=
  .seq (.lit (chars "【"))
    (.seq rws
      (.seq (.lit (chars "매"))
        (.seq rws
          (.seq (.lit (chars "매"))
            (.seq rws
              (.seq (.lit (chars "목"))
                (.seq rws
                  (.seq (.lit (chars "록"))
                    (.seq rws (.lit (chars "】")))))))))))

/-- `/【\s*갑\s*구\s*】.*?(?=【\s*을\s*구\s*】|【\s*매\s*매\s*목\s*록\s*】|$)/s`. -/
def sectionARe : Re :=
  .seq reHeadingA
    (.seq (.star (.cls anyChar) false)
      (.look (.alt reHeadingB (.alt reHeadingTrade .eos))))

/-- `/【\s*을\s*구\s*】[\s\S]*?(?=【\s*매\s*매\s*목\s*록\s*】|주요\s*등기사항\s*요약|출력일시|$)/`. -/
def sectionBRe : Re :=
  .seq reHeadingB
    (.seq (.star (.cls anyChar) false)
      (.look (.alt reHeadingTrade
        (.alt (.seq (.lit (chars "주요"))
                (.seq rws
                  (.seq (.lit (chars "등기사항"))
                    (.seq rws (.lit (chars "요약"))))))
          (.alt (.lit (chars "출력일시")) .eos)))))

/-- The lookahead `(?=\n\d+(?:-\d+)?\s+|\n【|\n\s*$)` of the section-A row
pattern. -/
def rowLookA : Re :=
  .look (.alt (.seq (.lit (chars "\n")) (.seq reRank (rplus jsWs)))
    (.alt (.seq (.lit (chars "\n")) (.lit (chars "【")))
      (.seq (.lit (chars "\n")) (.seq rws .eos))))

/-- The lookahead `(?=\n\d+(?:-\d+)?\s+|\n【|\n출력일시|\n주요\s*등기|$)` of the
section-B row pattern. -/
def rowLookB : Re :=
  .look (.alt (.seq (.lit (chars "\n")) (.seq reRank (rplus jsWs)))
    (.alt (.seq (.lit (chars "\n")) (.lit (chars "【")))
      (.alt (.seq (.lit (chars "\n")) (.lit (chars "출력일시")))
        (.alt (.seq (.lit (chars "\n"))
                (.seq (.lit (chars "주요"))
                  (.seq rws (.lit (chars "등기")))))
          .eos))))

/-- Section-A row pattern
`/(\d+(?:-\d+)?)\s+(소유권보존|…)[\s\S]*?(?=\n\d+(?:-\d+)?\s+|\n【|\n\s*$)/g`. -/
def rowReA : Re :=
  .seq (.group 1 reRank)
    (.seq (rplus jsWs)
      (.seq (.group 2 (raltsLits kwListA))
        (.seq (.star (.cls anyChar) false) rowLookA)))

/-- Section-B row pattern
`/(\d+(?:-\d+)?)\s+(근저당권설정|…)[\s\S]*?(?=\n\d+(?:-\d+)?\s+|\n【|\n출력일시|\n주요\s*등기|$)/g`. -/
def rowReB : Re :=
  .seq (.group 1 reRank)
    (.seq (rplus jsWs)
      (.seq (.group 2 (raltsLits kwListB))
        (.seq (.star (.cls anyChar) false) rowLookB)))

/-- `\d{4}년\s*\d{1,2}월\s*\d{1,2}일` — the receipt / cause date body. -/
def reDateBody : Re :=
  .seq (.cls isDigitC)
    (.seq (.cls isDigitC)
      (.seq (.cls isDigitC)
        (.seq (.cls isDigitC)
          (.seq (.lit (chars "년"))
            (.seq rws
              (.seq (.cls isDigitC)
                (.seq (ropt (.cls isDigitC))
                  (.seq (.lit (chars "월"))
                    (.seq rws
                      (.seq (.cls isDigitC)
                        (.seq (ropt (.cls isDigitC))
                          (.lit (chars "일")))))))))))))

/-- `/(\d{4}년\s*\d{1,2}월\s*\d{1,2}일)\s*제?\s*([\d]+호)/`. -/
def reReceipt : Re :=
  .seq (.group 1 reDateBody)
    (.seq rws
      (.seq (ropt (.lit (chars "제")))
        (.seq rws (.group 2 (.seq (rplus isDigitC) (.lit (chars "호")))))))

/-- `/등\s*기\s*원\s*인\s*\n?\s*([\s\S]*?)(?=권리자|소유자|채권자|$)/`. -/
def reCauseA : Re :=
  .seq (.lit (chars "등"))
    (.seq rws
      (.seq (.lit (chars "기"))
        (.seq rws
          (.seq (.lit (chars "원"))
            (.seq rws
              (.seq (.lit (chars "인"))
                (.seq rws
                  (.seq (ropt (.lit (chars "\n")))
                    (.seq rws
                      (.seq (.group 1 (.star (.cls anyChar) false))
                        (.look (.alt (.lit (chars "권리자"))
                          (.alt (.lit (chars "소유자"))
                            (.alt (.lit (chars "채권자")) .eos))))))))))))))

/-- `/(\d{4}년\s*\d{1,2}월\s*\d{1,2}일)\s*(?:매매|상속|증여|신탁|경락)/`. -/
def reCauseDateA : Re :=
  .seq (.group 1 reDateBody)
    (.seq rws
      (raltsLits [chars "매매", chars "상속", chars "증여", chars "신탁",
                  chars "경락"]))

/-- `\d{6}-\*{7}` — a masked resident registration number. -/
def reRrn : Re :=
  .seq (.cls isDigitC)
    (.seq (.cls isDigitC)
      (.seq (.cls isDigitC)
        (.seq (.cls isDigitC)
          (.seq (.cls isDigitC)
            (.seq (.cls isDigitC) (.lit (chars "-*******")))))))

/-- `\d{3}-\d{2}-\d{5}` — a corporate registration number. -/
def reCorpNum : Re :=
  .seq (.cls isDigitC)
    (.seq (.cls isDigitC)
      (.seq (.cls isDigitC)
        (.seq (.lit (chars "-"))
          (.seq (.cls isDigitC)
            (.seq (.cls isDigitC)
              (.seq (.lit (chars "-"))
                (.seq (.cls isDigitC)
                  (.seq (.cls isDigitC)
                    (.seq (.cls isDigitC)
                      (.seq (.cls isDigitC) (.cls isDigitC)))))))))))

/-- `/소유자\s+([^\d]+)\s+(\d{6}-\*{7})?\s*\n?\s*([^\n]*)/`. -/
def reOwner : Re :=
  .seq (.lit (chars "소유자"))
    (.seq (rplus jsWs)
      (.seq (.group 1 (rplus notDigit))
        (.seq (rplus jsWs)
          (.seq (ropt (.group 2 reRrn))
            (.seq rws
              (.seq (ropt (.lit (chars "\n")))
                (.seq rws (.group 3 (.star (.cls notNl) true)))))))))

/-- `/채권자\s+([^\d]+)\s+(\d{6}-\*{7}|\d{3}-\d{2}-\d{5})?\s*\n?\s*([^\n]*)/`. -/
def reCreditor : Re :=
  .seq (.lit (chars "채권자"))
    (.seq (rplus jsWs)
      (.seq (.group 1 (rplus notDigit))
        (.seq (rplus jsWs)
          (.seq (ropt (.group 2 (.alt reRrn reCorpNum)))
            (.seq rws
              (.seq (ropt (.lit (chars "\n")))
                (.seq rws (.group 3 (.star (.cls notNl) true)))))))))

/-- `/청구금액\s*(금[\d,]+원)/`. -/
def reClaim : Re :=
  .seq (.lit (chars "청구금액"))
    (.seq rws
      (.group 1 (.seq (.lit (chars "금"))
        (.seq (rplus isDigitComma) (.lit (chars "원"))))))

/-- `/(\d+번[^\n]*말소)/`. -/
def reCancelRef : Re :=
  .group 1 (.seq (rplus isDigitC)
    (.seq (.lit (chars "번"))
      (.seq (.star (.cls notNl) true) (.lit (chars "말소")))))

/-- One section-A entry from a row match (the loop body of
`parseSectionAEntries`, src/unnamed/part_000:714-774). -/
def buildSectionAEntry (m : List Char) (cps : Caps) : SectionAEntry :=
  let receipt := reFirst reReceipt m
  let isCancelled := strIncludes m (chars "말소")
  { rankNumber := (capLookup 1 cps).getD []
    registrationType := (capLookup 2 cps).getD []
    receiptDate := match receipt with
      | some (_, c, _) => (capLookup 1 c).getD []
      | none => []
    receiptNumber := match receipt with
      | some (_, c, _) => (capLookup 2 c).getD []
      | none => []
    registrationCause := match reGroup reCauseA 1 m with
      | some g => jsTrim g
      | none => []
    registrationCauseDate := reGroup reCauseDateA 1 m
    owners := []
    creditor := match reFirst reCreditor m with
      | some (_, c, _) =>
        some { name := jsTrim ((capLookup 1 c).getD [])
               residentNumber := capLookup 2 c
               address := (capLookup 3 c).map jsTrim }
      | none => none
    claimAmount := parseAmount ((reGroup reClaim 1 m).getD [])
    restriction := none
    isCancelled := isCancelled
    cancelledByRank := none
    cancellationDate := none
    cancellationCause := none
    cancelsRank := none
    remarks := none
    owner := match reFirst reOwner m with
      | some (_, c, _) =>
        some { name := jsTrim ((capLookup 1 c).getD [])
               residentNumber := capLookup 2 c
               address := (capLookup 3 c).map jsTrim
               share := none }
      | none => none
    cancellationInfo := if isCancelled then reGroup reCancelRef 1 m else none }

/-- `parseSectionAEntries` (src/unnamed/part_000:700-777). -/
def parseSectionAEntries (text : List Char) : List SectionAEntry :=
  match reFirst sectionARe text with
  | none => []
  | some (sectionAText, _, _) =>
    (execLoop rowReA (sectionAText.length + 1) sectionAText).map
      (fun mc => buildSectionAEntry mc.1 mc.2)

/-- `/등\s*기\s*원\s*인\s*\n?\s*([\s\S]*?)(?=채권|채무|근저|임차|$)/`. -/
def reCauseB : Re :=
  .seq (.lit (chars "등"))
    (.seq rws
      (.seq (.lit (chars "기"))
        (.seq rws
          (.seq (.lit (chars "원"))
            (.seq rws
              (.seq (.lit (chars "인"))
                (.seq rws
                  (.seq (ropt (.lit (chars "\n")))
                    (.seq rws
                      (.seq (.group 1 (.star (.cls anyChar) false))
                        (.look (.alt (.lit (chars "채권"))
                          (.alt (.lit (chars "채무"))
                            (.alt (.lit (chars "근저"))
                              (.alt (.lit (chars "임차")) .eos)))))))))))))))

/-- `/(\d{4}년\s*\d{1,2}월\s*\d{1,2}일)\s*(?:설정계약|추가설정계약|확정채권양도|계약인수)/`. -/
def reCauseDateB : Re :=
  .seq (.group 1 reDateBody)
    (.seq rws
      (raltsLits [chars "설정계약", chars "추가설정계약",
                  chars "확정채권양도", chars "계약인수"]))

/-- `/채권최고액\s*(금[\d,]+원)/`. -/
def reMaxClaim : Re :=
  .seq (.lit (chars "채권최고액"))
    (.seq rws
      (.group 1 (.seq (.lit (chars "금"))
        (.seq (rplus isDigitComma) (.lit (chars "원"))))))

/-- `/채무자\s+([^\d\n]+)\s+(\d{6}-\*{7}|\d{3}-\d{2}-\d{5})?\s*\n?\s*([^\n채근]*)/`. -/
def reDebtor : Re :=
  .seq (.lit (chars "채무자"))
    (.seq (rplus jsWs)
      (.seq (.group 1 (rplus notDigitNl))
        (.seq (rplus jsWs)
          (.seq (ropt (.group 2 (.alt reRrn reCorpNum)))
            (.seq rws
              (.seq (ropt (.lit (chars "\n")))
                (.seq rws (.group 3 (.star (.cls notNlChaeGeun) true)))))))))

/-- `/근저당권자\s+([^\d\n]+)\s+(\d{3}-\d{2}-\d{5}|\d{6}-\*{7})?\s*\n?\s*([^\n임채공]*)/`. -/
def reMortgagee : Re :=
  .seq (.lit (chars "근저당권자"))
    (.seq (rplus jsWs)
      (.seq (.group 1 (rplus notDigitNl))
        (.seq (rplus jsWs)
          (.seq (ropt (.group 2 (.alt reCorpNum reRrn)))
            (.seq rws
              (.seq (ropt (.lit (chars "\n")))
                (.seq rws (.group 3 (.star (.cls notNlImChaeGong) true)))))))))

/-- `/임차보증금\s*(금[\d,]+원)/`. -/
def reDeposit : Re :=
  .seq (.lit (chars "임차보증금"))
    (.seq rws
      (.group 1 (.seq (.lit (chars "금"))
        (.seq (rplus isDigitComma) (.lit (chars "원"))))))

/-- `/차\s*임\s*월?\s*금?\s*(금[\d,]+원)/`. -/
def reRent : Re :=
  .seq (.lit (chars "차"))
    (.seq rws
      (.seq (.lit (chars "임"))
        (.seq rws
          (.seq (ropt (.lit (chars "월")))
            (.seq rws
              (.seq (ropt (.lit (chars "금")))
                (.seq rws
                  (.group 1 (.seq (.lit (chars "금"))
                    (.seq (rplus isDigitComma) (.lit (chars "원"))))))))))))

/-- `/임대차계약일자\s*(\d{4}년\s*\d{1,2}월\s*\d{1,2}일)/`. -/
def reContractDate : Re :=
  .seq (.lit (chars "임대차계약일자")) (.seq rws (.group 1 reDateBody))

/-- `/주민등록일자\s*(\d{4}년\s*\d{1,2}월\s*\d{1,2}일)/`. -/
def reResidentRegDate : Re :=
  .seq (.lit (chars "주민등록일자")) (.seq rws (.group 1 reDateBody))

/-- `/점유개시일자\s*(\d{4}년\s*\d{1,2}월\s*\d{1,2}일)/`. -/
def rePossessionDate : Re :=
  .seq (.lit (chars "점유개시일자")) (.seq rws (.group 1 reDateBody))

/-- `/확정일자\s*(\d{4}년\s*\d{1,2}월\s*\d{1,2}일)/`. -/
def reFixedDate : Re :=
  .seq (.lit (chars "확정일자")) (.seq rws (.group 1 reDateBody))

/-- `/임차권자\s+([^\d\n]+)\s+(\d{6}-\*{7})?\s*\n?\s*([^\n]*)/`. -/
def reLessee : Re :=
  .seq (.lit (chars "임차권자"))
    (.seq (rplus jsWs)
      (.seq (.group 1 (rplus notDigitNl))
        (.seq (rplus jsWs)
          (.seq (ropt (.group 2 reRrn))
            (.seq rws
              (.seq (ropt (.lit (chars "\n")))
                (.seq rws (.group 3 (.star (.cls notNl) true)))))))))

/-- `/범\s*위\s*([\s\S]*?)(?=임대차계약일자|$)/`. -/
def reLeaseArea : Re :=
  .seq (.lit (chars "범"))
    (.seq rws
      (.seq (.lit (chars "위"))
        (.seq rws
          (.seq (.group 1 (.star (.cls anyChar) false))
            (.look (.alt (.lit (chars "임대차계약일자")) .eos))))))

/-- One section-B entry from a row match (the loop body of
`parseSectionBEntries`, src/unnamed/part_000:793-889). -/
def buildSectionBEntry (m : List Char) (cps : Caps) : SectionBEntry :=
  let receipt := reFirst reReceipt m
  { rankNumber := (capLookup 1 cps).getD []
    registrationType := (capLookup 2 cps).getD []
    receiptDate := match receipt with
      | some (_, c, _) => (capLookup 1 c).getD []
      | none => []
    receiptNumber := match receipt with
      | some (_, c, _) => (capLookup 2 c).getD []
      | none => []
    registrationCause := match reGroup reCauseB 1 m with
      | some g => jsTrim g
      | none => []
    registrationCauseDate := reGroup reCauseDateB 1 m
    maxClaimAmount := parseAmount ((reGroup reMaxClaim 1 m).getD [])
    debtor := match reFirst reDebtor m with
      | some (_, c, _) =>
        some { name := jsTrim ((capLookup 1 c).getD [])
               residentNumber := capLookup 2 c
               address := (capLookup 3 c).map jsTrim
               share := none }
      | none => none
    mortgagee := match reFirst reMortgagee m with
      | some (_, c, _) =>
        some { name := jsTrim ((capLookup 1 c).getD [])
               residentNumber := capLookup 2 c
               address := (capLookup 3 c).map jsTrim }
      | none => none
    depositAmount := parseAmount ((reGroup reDeposit 1 m).getD [])
    monthlyRent := parseAmount ((reGroup reRent 1 m).getD [])
    leaseTerm := match reGroup reContractDate 1 m with
      | some cd =>
        some { contractDate := cd
               residentRegistrationDate := reGroup reResidentRegDate 1 m
               possessionStartDate := reGroup rePossessionDate 1 m
               fixedDate := reGroup reFixedDate 1 m }
      | none => none
    lessee := match reFirst reLessee m with
      | some (_, c, _) =>
        some { name := jsTrim ((capLookup 1 c).getD [])
               residentNumber := capLookup 2 c
               address := (capLookup 3 c).map jsTrim }
      | none => none
    leaseArea := (reGroup reLeaseArea 1 m).map (fun g => (jsTrim g).take 200)
    jeonseDeposit := none
    jeonseRightHolder := none
    isCancelled := strIncludes m (chars "말소")
    cancellationInfo := none }

/-- `parseSectionBEntries` (src/unnamed/part_000:780-892). -/
def parseSectionBEntries (text : List Char) : List SectionBEntry :=
  match reFirst sectionBRe text with
  | none => []
  | some (sectionBText, _, _) =>
    (execLoop rowReB (sectionBText.length + 1) sectionBText).map
      (fun mc => buildSectionBEntry mc.1 mc.2)

/-! ## Whole-document parse, demo masking, and the processing entry point -/

/-- `parseRegistryPDF` (src/unnamed/part_000:895-968).  The pdf2json /
pdf-parse extraction step is an IO boundary and is embedded as the
function's `extractedText` input: `none` means neither library produced a
text layer, in which case the source throws
`new Error('PDF 텍스트 추출에 실패했습니다.')`; `some text` is the extracted
text.  `new Date().toISOString()` is a clock reading, passed in as
`parseDate`. -/
def parseRegistryPDF (extractedText : Option (List Char))
    (parseDate : List Char) : Except (List Char) RegistryData :=
  match extractedText with
  | none => .error (chars "PDF 텍스트 추출에 실패했습니다.")
  | some text =>
    .ok { uniqueNumber := extractUniqueNumber text
          propertyType := detectPropertyType text
          propertyAddress := extractAddress text
          titleInfo := parseTitleSection text
          sectionA := parseSectionAEntries text
          sectionB := parseSectionBEntries text
          trade_lists := none
          summary := none
          rawText := text
          parseDate := parseDate }

/-- An owner of the first kept ownership entry after demo masking
(the arrow body inside `maskForDemo`'s `owners` map). -/
def maskOwner (o : OwnerInfo) : OwnerInfo :=
  { name := o.name.take 1 ++ ['*'] ++
      (match o.name.getLast? with
       | some c => [c]
       | none => [])
    residentNumber := match o.residentNumber with
      | some r => if r = [] then none else some (chars "******-*******")
      | none => none
    address := match o.address with
      | some a => if a = [] then none else some (a.take 10 ++ chars "...")
      | none => none
    share := o.share }

/-- The masked section-A entry: spread of the original entry with only the
`owners` array rewritten. -/
def maskSectionAEntryDemo (e : SectionAEntry) : SectionAEntry :=
  { e with owners := e.owners.map maskOwner }

/-- The object literal `maskForDemo` builds for a kept section-B entry: only
rank number, registration type and receipt date are present; the monetary
and party fields are explicitly `undefined` and every other field of
`SectionBEntry` is absent. -/
structure MaskedSectionBEntry where
  rankNumber : List Char
  registrationType : List Char
  receiptDate : List Char
  maxClaimAmount : Option JsNum
  depositAmount : Option JsNum
  mortgagee : Option CreditorInfo
  lessee : Option LesseeInfo
  leaseTerm : Option LeaseTermInfo
deriving DecidableEq, Repr

/-- The masked section-B entry of `maskForDemo`. -/
def maskSectionBEntryDemo (e : SectionBEntry) : MaskedSectionBEntry :=
  { rankNumber := e.rankNumber
    registrationType := e.registrationType
    receiptDate := e.receiptDate
    maxClaimAmount := none
    depositAmount := none
    mortgagee := none
    lessee := none
    leaseTerm := none }

/-- The `Partial<RegistryData>` object literal returned by `maskForDemo`:
exactly the keys it writes (`rawText`, `trade_lists` and `summary` are
absent from the masked value). -/
structure MaskedRegistryData where
  uniqueNumber : List Char
  propertyType : PropertyType
  propertyAddress : List Char
  titleInfo : RegistryTitleInfo
  sectionA : List SectionAEntry
  sectionB : List MaskedSectionBEntry
  parseDate : List Char
deriving DecidableEq, Repr

/-- `maskForDemo` (src/unnamed/part_000:971-1004). -/
def maskForDemo (data : RegistryData) : MaskedRegistryData :=
  { uniqueNumber := data.uniqueNumber
    propertyType := data.propertyType
    propertyAddress := data.propertyAddress
    titleInfo := { data.titleInfo with areas := data.titleInfo.areas.take 1 }
    sectionA := (data.sectionA.take 1).map maskSectionAEntryDemo
    sectionB := (data.sectionB.take 1).map maskSectionBEntryDemo
    parseDate := data.parseDate }

/-- The value stored in `ParseResponse.data`: either the full document (paid
path) or the demo-masked value (which the source casts to `RegistryData`
when storing it). -/
inductive ParsePayload where
  | full (d : RegistryData) : ParsePayload
  | demo (m : MaskedRegistryData) : ParsePayload
deriving DecidableEq, Repr

/-- `ParseResponse` (src/unnamed/part_000:533-539). -/
structure ParseResponse where
  success : Bool
  data : Option ParsePayload
  error : Option (List Char)
  requestId : List Char
  isDemo : Bool
deriving DecidableEq, Repr

/-- `parseAndProcessPDF` (src/unnamed/part_000:1051-1095).  `sendWebhook`
performs network IO, never throws (it catches its own errors), and its
result is ignored by the caller, so it does not appear in the embedding;
`uuidv4()` is a fresh-name source passed in as `requestId`. -/
def parseAndProcessPDF (extractedText : Option (List Char)) (isPaid : Bool)
    (_webhookUrl : Option (List Char)) (parseDate requestId : List Char) :
    ParseResponse :=
  match parseRegistryPDF extractedText parseDate with
  | .ok fullData =>
    { success := true
      data := some (if isPaid then .full fullData
                    else .demo (maskForDemo fullData))
      error := none
      requestId := requestId
      isDemo := !isPaid }
  | .error e =>
    { success := false
      data := none
      error := some e
      requestId := requestId
      isDemo := !isPaid }

/-! ## Observation helpers used by concrete evaluations -/

/-- Rank numbers of the parsed ownership entries, in order. -/
def sectionARanks (t : List Char) : List (List Char) :=
  (parseSectionAEntries t).map (fun e => e.rankNumber)

/-- Registration type of the first parsed ownership entry. -/
def firstRegTypeA (t : List Char) : Option (List Char) :=
  ((parseSectionAEntries t).head?).map (fun e => e.registrationType)

/-- Registration type of the first parsed encumbrance entry. -/
def firstRegTypeB (t : List Char) : Option (List Char) :=
  ((parseSectionBEntries t).head?).map (fun e => e.registrationType)

/-- Rank, cancellation flag and cancellation reference of each parsed
ownership entry. -/
def sectionACancelMarks (t : List Char) :
    List (List Char × Bool × Option (List Char)) :=
  (parseSectionAEntries t).map
    (fun e => (e.rankNumber, e.isCancelled, e.cancellationInfo))

/-- The name stored under the `owner` field of the first ownership entry of
a demo (masked) response. -/
def demoFirstOwnerName (r : ParseResponse) : Option (List Char) :=
  match r.data with
  | some (.demo m) =>
    match m.sectionA with
    | e :: _ =>
      match e.owner with
      | some o => some o.name
      | none => none
    | [] => none
  | _ => none

/-- Whether a response's data payload is the demo-masked shape. -/
def isDemoPayload (r : ParseResponse) : Bool :=
  match r.data with
  | some (.demo _) => true
  | _ => false

/-- A concrete owner record used to exercise the masking transform. -/
def o0 : OwnerInfo :=
  { name := chars "홍길동"
    residentNumber := some (chars "901234-*******")
    address := some (chars "서울특별시 관악구 봉천동 123-4")
    share := none }

/-- A concrete ownership entry with a populated owners array. -/
def a0entry : SectionAEntry :=
  { rankNumber := chars "1"
    registrationType := chars "소유권이전"
    receiptDate := chars "2024년 1월 3일"
    receiptNumber := chars "123호"
    registrationCause := chars "매매"
    registrationCauseDate := none
    owners := [o0]
    creditor := none
    claimAmount := none
    restriction := none
    isCancelled := false
    cancelledByRank := none
    cancellationDate := none
    cancellationCause := none
    cancelsRank := none
    remarks := none
    owner := some o0
    cancellationInfo := none }

/-- A concrete encumbrance entry with monetary and party detail. -/
def b0entry : SectionBEntry :=
  { rankNumber := chars "1"
    registrationType := chars "근저당권설정"
    receiptDate := chars "2024년 3월 15일"
    receiptNumber := chars "54321호"
    registrationCause := chars "설정계약"
    registrationCauseDate := none
    maxClaimAmount := some (JsNum.int 300000000)
    debtor := some o0
    mortgagee := some { name := chars "국민은행", residentNumber := none,
                        address := some (chars "서울특별시 중구") }
    depositAmount := some (JsNum.int 50000000)
    monthlyRent := none
    leaseTerm := none
    lessee := none
    leaseArea := none
    jeonseDeposit := none
    jeonseRightHolder := none
    isCancelled := false
    cancellationInfo := none }

/-- A concrete title block with two floor-area lines. -/
def title0 : RegistryTitleInfo :=
  { uniqueNumber := chars "1184-2024-012345"
    propertyType := .building
    address := chars "서울특별시 강남구 역삼동 123-4"
    roadAddress := none
    buildingName := none
    structure_ := chars "철근콘크리트구조"
    roofType := chars "(철근)콘크리트 지붕"
    floors := 5
    buildingType := chars "아파트"
    areas := [{ floor := chars "1층", area := ⟨chars "85.5"⟩, isExcluded := false },
              { floor := chars "2층", area := ⟨chars "85.5"⟩, isExcluded := false }]
    landRights := none
    exclusiveArea := none
    landRightRatio := none }

/-- A concrete parsed document used to exercise the masking transform. -/
def doc0 : RegistryData :=
  { uniqueNumber := chars "1184-2024-012345"
    propertyType := .building
    propertyAddress := chars "서울특별시 강남구 역삼동 123-4"
    titleInfo := title0
    sectionA := [a0entry]
    sectionB := [b0entry]
    trade_lists := none
    summary := none
    rawText := chars "등기사항전부증명서"
    parseDate := chars "2026-02-20T00:00:00.000Z" }

/-! ## Capture soundness of the row patterns

The row patterns of both sections capture the registration type as group 2
of an ordered alternation of keyword literals.  The lemmas below show that
any successful match therefore carries, in group 2, exactly one of the
keywords. -/

/-- Group 2 of the capture environment, when bound, holds a keyword. -/
def cap2Sound (kws : List (List Char)) (c : Caps) : Prop :=
  ∀ w, capLookup 2 c = some w → w ∈ kws

/-- Syntactic check: every path through the pattern binds group 2. -/
def mustCap2 : Re → Bool
  | .eps => false
  | .cls _ => false
  | .lit _ => false
  | .seq a b => mustCap2 a || mustCap2 b
  | .alt a b => mustCap2 a && mustCap2 b
  | .star _ _ => false
  | .group n a => (n == 2) || mustCap2 a
  | .look _ => false
  | .eos => false

/-- Syntactic check: every group-2 node of the pattern is the keyword
alternation. -/
def cap2Good (kws : List (List Char)) : Re → Prop
  | .eps => True
  | .cls _ => True
  | .lit _ => True
  | .seq a b => cap2Good kws a ∧ cap2Good kws b
  | .alt a b => cap2Good kws a ∧ cap2Good kws b
  | .star a _ => cap2Good kws a
  | .group n a => (n = 2 ∧ a = raltsLits kws) ∨ (n ≠ 2 ∧ cap2Good kws a)
  | .look _ => True
  | .eos => True

/-- The head of `v` (if any) fails the class `p`; used to state that a
greedy class star consumed a maximal run. -/
def headNotB (p : Char → Bool) : List Char → Bool
  | [] => true
  | y :: _ => !(p y)

theorem capLookup_insert_self (n : Nat) (v : List Char) (c : Caps) :
    capLookup n (capInsert n v c) = some v := by
  simp [capLookup, capInsert, List.find?]

theorem capLookup_insert_ne (m n : Nat) (h : n ≠ m) (v : List Char)
    (c : Caps) : capLookup m (capInsert n v c) = capLookup m c := by
  have hb : (n == m) = false := by
    simp [h]
  simp [capLookup, capInsert, List.find?, hb]

theorem capLookup_nil (n : Nat) : capLookup n ([] : Caps) = none := by
  simp [capLookup, List.find?]

theorem matchR_raltsLits :
    ∀ (kws : List (List Char)) (fuel : Nat) (s : List Char) (c : Caps) k r,
      matchR fuel (raltsLits kws) s c k = some r →
      ∃ l, l ∈ kws ∧ l.isPrefixOf s = true ∧ k (s.drop l.length) c = some r := by
  intro kws
  induction kws with
  | nil =>
    intro fuel s c k r hm
    cases fuel with
    | zero => simp [matchR] at hm
    | succ f =>
      simp only [raltsLits, matchR] at hm
      cases s with
      | nil => simp at hm
      | cons x t => simp at hm
  | cons l rest ih =>
    intro fuel s c k r hm
    cases fuel with
    | zero => simp [matchR] at hm
    | succ f =>
      simp only [raltsLits, matchR] at hm
      cases ha : matchR f (.lit l) s c k with
      | some v =>
        rw [ha] at hm
        simp only [Option.orElse] at hm
        cases f with
        | zero => simp [matchR] at ha
        | succ f2 =>
          simp only [matchR] at ha
          by_cases hp : l.isPrefixOf s
          · simp only [hp, if_true] at ha
            exact ⟨l, List.mem_cons_self l rest, hp, by rw [ha]; exact hm⟩
          · simp [hp] at ha
      | none =>
        rw [ha] at hm
        simp only [Option.orElse] at hm
        obtain ⟨l2, hmem, hp, hk⟩ := ih f s c k r hm
        exact ⟨l2, List.mem_cons_of_mem l hmem, hp, hk⟩

theorem matchR_cap2 (kws : List (List Char)) :
    ∀ (fuel : Nat) (re : Re) (s : List Char) (c : Caps) k r,
      cap2Good kws re → cap2Sound kws c →
      matchR fuel re s c k = some r →
      ∃ s1 c1, cap2Sound kws c1 ∧
        ((mustCap2 re = true ∨ (capLookup 2 c).isSome = true) →
          (capLookup 2 c1).isSome = true) ∧
        k s1 c1 = some r := by
  intro fuel
  induction fuel with
  | zero => intro re s c k r _ _ hm; simp [matchR] at hm
  | succ f ih =>
    intro re s c k r hg hq hm
    cases re with
    | eps =>
      refine ⟨s, c, hq, ?_, hm⟩
      intro h
      exact h.resolve_left (by simp [mustCap2])
    | cls p =>
      simp only [matchR] at hm
      cases s with
      | nil => simp at hm
      | cons x rest =>
        by_cases hp : p x
        · simp only [hp, if_true] at hm
          refine ⟨rest, c, hq, ?_, hm⟩
          intro h
          exact h.resolve_left (by simp [mustCap2])
        · simp [hp] at hm
    | lit l =>
      simp only [matchR] at hm
      by_cases hp : l.isPrefixOf s
      · simp only [hp, if_true] at hm
        refine ⟨s.drop l.length, c, hq, ?_, hm⟩
        intro h
        exact h.resolve_left (by simp [mustCap2])
      · simp [hp] at hm
    | seq a b =>
      simp only [matchR] at hm
      obtain ⟨hga, hgb⟩ := hg
      obtain ⟨s1, c1, hq1, hm1, hk1⟩ := ih a s c _ r hga hq hm
      obtain ⟨s2, c2, hq2, hm2, hk2⟩ := ih b s1 c1 k r hgb hq1 hk1
      refine ⟨s2, c2, hq2, ?_, hk2⟩
      intro h
      apply hm2
      rcases h with h | h
      · simp only [mustCap2, Bool.or_eq_true] at h
        rcases h with h | h
        · exact Or.inr (hm1 (Or.inl h))
        · exact Or.inl h
      · exact Or.inr (hm1 (Or.inr h))
    | alt a b =>
      simp only [matchR] at hm
      obtain ⟨hga, hgb⟩ := hg
      cases ha : matchR f a s c k with
      | some v =>
        rw [ha] at hm
        simp only [Option.orElse] at hm
        obtain ⟨s1, c1, hq1, hm1, hk1⟩ :=
          ih a s c k r hga hq (by rw [ha]; exact hm)
        refine ⟨s1, c1, hq1, ?_, hk1⟩
        intro h
        apply hm1
        rcases h with h | h
        · simp only [mustCap2, Bool.and_eq_true] at h
          exact Or.inl h.1
        · exact Or.inr h
      | none =>
        rw [ha] at hm
        simp only [Option.orElse] at hm
        obtain ⟨s1, c1, hq1, hm1, hk1⟩ := ih b s c k r hgb hq hm
        refine ⟨s1, c1, hq1, ?_, hk1⟩
        intro h
        apply hm1
        rcases h with h | h
        · simp only [mustCap2, Bool.and_eq_true] at h
          exact Or.inl h.2
        · exact Or.inr h
    | star a g =>
      simp only [matchR] at hm
      have hga : cap2Good kws a := hg
      cases g with
      | true =>
        simp only [if_true] at hm
        cases ha : matchR f a s c (fun s1 c1 =>
            if s1.length = s.length then none
            else matchR f (.star a true) s1 c1 k) with
        | some v =>
          rw [ha] at hm
          simp only [Option.orElse] at hm
          obtain ⟨s1, c1, hq1, hm1, hk1⟩ :=
            ih a s c _ r hga hq (by rw [ha]; exact hm)
          by_cases hl : s1.length = s.length
          · simp [hl] at hk1
          · simp only [hl, if_false] at hk1
            obtain ⟨s2, c2, hq2, hm2, hk2⟩ :=
              ih (.star a true) s1 c1 k r hga hq1 hk1
            refine ⟨s2, c2, hq2, ?_, hk2⟩
            intro h
            apply hm2
            rcases h with h | h
            · simp [mustCap2] at h
            · exact Or.inr (hm1 (Or.inr h))
        | none =>
          rw [ha] at hm
          simp only [Option.orElse] at hm
          refine ⟨s, c, hq, ?_, hm⟩
          intro h
          exact h.resolve_left (by simp [mustCap2])
      | false =>
        simp only [Bool.false_eq_true, if_false] at hm
        cases ha : k s c with
        | some v =>
          rw [ha] at hm
          simp only [Option.orElse] at hm
          refine ⟨s, c, hq, ?_, by rw [ha]; exact hm⟩
          intro h
          exact h.resolve_left (by simp [mustCap2])
        | none =>
          rw [ha] at hm
          simp only [Option.orElse] at hm
          obtain ⟨s1, c1, hq1, hm1, hk1⟩ := ih a s c _ r hga hq hm
          by_cases hl : s1.length = s.length
          · simp [hl] at hk1
          · simp only [hl, if_false] at hk1
            obtain ⟨s2, c2, hq2, hm2, hk2⟩ :=
              ih (.star a false) s1 c1 k r hga hq1 hk1
            refine ⟨s2, c2, hq2, ?_, hk2⟩
            intro h
            apply hm2
            rcases h with h | h
            · simp [mustCap2] at h
            · exact Or.inr (hm1 (Or.inr h))
    | group n a =>
      simp only [matchR] at hm
      rcases hg with ⟨hn2, hra⟩ | ⟨hn2, hga⟩
      · subst hn2
        subst hra
        obtain ⟨l, hmem, hp, hk⟩ := matchR_raltsLits kws f s c _ r hm
        have hpre : l <+: s := List.isPrefixOf_iff_prefix.mp hp
        have hle : l.length ≤ s.length := hpre.length_le
        have htake : s.take (s.length - (s.drop l.length).length) = l := by
          rw [List.length_drop, Nat.sub_sub_self hle]
          obtain ⟨t, rfl⟩ := hpre
          exact List.take_left l t
        rw [htake] at hk
        refine ⟨s.drop l.length, capInsert 2 l c, ?_, ?_, hk⟩
        · intro w hw
          rw [capLookup_insert_self] at hw
          cases hw
          exact hmem
        · intro _
          simp [capLookup_insert_self]
      · obtain ⟨s1, c1, hq1, hm1, hk1⟩ := ih a s c _ r hga hq hm
        refine ⟨s1, capInsert n (s.take (s.length - s1.length)) c1, ?_, ?_, hk1⟩
        · intro w hw
          rw [capLookup_insert_ne 2 n hn2] at hw
          exact hq1 w hw
        · intro h
          rw [capLookup_insert_ne 2 n hn2]
          apply hm1
          rcases h with h | h
          · simp only [mustCap2, Bool.or_eq_true] at h
            rcases h with h | h
            · exact absurd (by simpa using h) hn2
            · exact Or.inl h
          · exact Or.inr h
    | look a =>
      simp only [matchR] at hm
      cases hi : matchR f a s c (fun s1 c1 => some (s1, c1)) with
      | some v =>
        rw [hi] at hm
        refine ⟨s, c, hq, ?_, hm⟩
        intro h
        exact h.resolve_left (by simp [mustCap2])
      | none => rw [hi] at hm; simp at hm
    | eos =>
      simp only [matchR] at hm
      cases s with
      | nil =>
        refine ⟨[], c, hq, ?_, hm⟩
        intro h
        exact h.resolve_left (by simp [mustCap2])
      | cons x t => simp at hm


theorem matchR_top_cap2 (kws : List (List Char)) (re : Re) (fuel : Nat)
    (s : List Char) (hg : cap2Good kws re) (hmc : mustCap2 re = true)
    (s1 : List Char) (c1 : Caps)
    (h : matchR fuel re s [] (fun s2 c2 => some (s2, c2)) = some (s1, c1)) :
    ∃ w, capLookup 2 c1 = some w ∧ w ∈ kws := by
  have hq0 : cap2Sound kws [] := by
    intro w hw
    rw [capLookup_nil] at hw
    cases hw
  obtain ⟨s2, c2, hq2, hm2, hk2⟩ := matchR_cap2 kws fuel re s [] _ _ hg hq0 h
  simp only [Option.some.injEq, Prod.mk.injEq] at hk2
  obtain ⟨rfl, rfl⟩ := hk2
  have hsome : (capLookup 2 c2).isSome = true := hm2 (Or.inl hmc)
  obtain ⟨w, hw⟩ := Option.isSome_iff_exists.mp hsome
  exact ⟨w, hw, hq2 w hw⟩

theorem reFirst_cap2 (kws : List (List Char)) (re : Re)
    (hg : cap2Good kws re) (hmc : mustCap2 re = true) :
    ∀ (s : List Char) m cps rest, reFirst re s = some (m, cps, rest) →
      ∃ w, capLookup 2 cps = some w ∧ w ∈ kws := by
  intro s
  induction s with
  | nil =>
    intro m cps rest h
    rw [reFirst] at h
    split at h
    case _ s1 c1 heq =>
      simp only [Option.some.injEq, Prod.mk.injEq] at h
      obtain ⟨-, hc, -⟩ := h
      subst hc
      exact matchR_top_cap2 kws re _ [] hg hmc s1 c1 heq
    case _ => simp at h
  | cons x t ih =>
    intro m cps rest h
    rw [reFirst] at h
    split at h
    case _ s1 c1 heq =>
      simp only [Option.some.injEq, Prod.mk.injEq] at h
      obtain ⟨-, hc, -⟩ := h
      subst hc
      exact matchR_top_cap2 kws re _ (x :: t) hg hmc s1 c1 heq
    case _ => exact ih m cps rest h

theorem execLoop_mem (re : Re) :
    ∀ (fuel : Nat) (s : List Char) (x : List Char × Caps),
      x ∈ execLoop re fuel s →
      ∃ s0 rest, reFirst re s0 = some (x.1, x.2, rest) := by
  intro fuel
  induction fuel with
  | zero => intro s x hx; simp [execLoop] at hx
  | succ f ih =>
    intro s x hx
    rw [execLoop] at hx
    split at hx
    case _ => simp at hx
    case _ m cps rest heq =>
      by_cases he : m.isEmpty
      · simp [he] at hx
      · simp only [he, if_false, List.mem_cons, Bool.false_eq_true] at hx
        rcases hx with rfl | hx
        · exact ⟨s, rest, heq⟩
        · exact ih rest x hx

theorem cap2Good_rowReA : cap2Good kwListA rowReA := by
  simp [cap2Good, rowReA, reRank, rplus, ropt, rws, rowLookA]

theorem cap2Good_rowReB : cap2Good kwListB rowReB := by
  simp [cap2Good, rowReB, reRank, rplus, ropt, rws, rowLookB]

theorem mustCap2_rowReA : mustCap2 rowReA = true := by rfl

theorem mustCap2_rowReB : mustCap2 rowReB = true := by rfl

/-- Every entry produced by `parseSectionAEntries` was built from a row
match whose group 2 is one of the section-A keywords, so its registration
type is one of those keywords. -/
theorem parseSectionA_regType (t : List Char) (e : SectionAEntry)
    (he : e ∈ parseSectionAEntries t) : e.registrationType ∈ kwListA := by
  rw [parseSectionAEntries] at he
  split at he
  case _ => simp at he
  case _ sText c1 rest heq =>
    obtain ⟨mc, hmc, rfl⟩ := List.mem_map.mp he
    obtain ⟨s0, rest0, hfirst⟩ := execLoop_mem rowReA _ sText mc hmc
    obtain ⟨w, hw, hmem⟩ :=
      reFirst_cap2 kwListA rowReA cap2Good_rowReA mustCap2_rowReA
        s0 mc.1 mc.2 rest0 hfirst
    have : (buildSectionAEntry mc.1 mc.2).registrationType = w := by
      simp [buildSectionAEntry, hw]
    rw [this]
    exact hmem

/-- Section-B counterpart of `parseSectionA_regType`. -/
theorem parseSectionB_regType (t : List Char) (e : SectionBEntry)
    (he : e ∈ parseSectionBEntries t) : e.registrationType ∈ kwListB := by
  rw [parseSectionBEntries] at he
  split at he
  case _ => simp at he
  case _ sText c1 rest heq =>
    obtain ⟨mc, hmc, rfl⟩ := List.mem_map.mp he
    obtain ⟨s0, rest0, hfirst⟩ := execLoop_mem rowReB _ sText mc hmc
    obtain ⟨w, hw, hmem⟩ :=
      reFirst_cap2 kwListB rowReB cap2Good_rowReB mustCap2_rowReB
        s0 mc.1 mc.2 rest0 hfirst
    have : (buildSectionBEntry mc.1 mc.2).registrationType = w := by
      simp [buildSectionBEntry, hw]
    rw [this]
    exact hmem

/-- No section-A keyword is the empty string. -/
theorem kwListA_ne_nil : ∀ w ∈ kwListA, w ≠ [] := by decide

/-- No section-B keyword is the empty string. -/
theorem kwListB_ne_nil : ∀ w ∈ kwListB, w ≠ [] := by decide

/-- Every parsed section-A entry is the build of some row match. -/
theorem parseSectionA_shape (t : List Char) (e : SectionAEntry)
    (he : e ∈ parseSectionAEntries t) :
    ∃ m c, e = buildSectionAEntry m c := by
  rw [parseSectionAEntries] at he
  split at he
  case _ => simp at he
  case _ sText c1 rest heq =>
    obtain ⟨mc, hmc, rfl⟩ := List.mem_map.mp he
    exact ⟨mc.1, mc.2, rfl⟩

/-- Every parsed section-B entry is the build of some row match. -/
theorem parseSectionB_shape (t : List Char) (e : SectionBEntry)
    (he : e ∈ parseSectionBEntries t) :
    ∃ m c, e = buildSectionBEntry m c := by
  rw [parseSectionBEntries] at he
  split at he
  case _ => simp at he
  case _ sText c1 rest heq =>
    obtain ⟨mc, hmc, rfl⟩ := List.mem_map.mp he
    exact ⟨mc.1, mc.2, rfl⟩

/-- In a built section-A entry the cancellation reference is only ever set
together with the cancellation flag (`cancellationInfo` is assigned under
`isCancelled ? … : undefined`). -/
theorem buildA_cancelInfo_flag (m : List Char) (c : Caps)
    (h : (buildSectionAEntry m c).cancellationInfo ≠ none) :
    (buildSectionAEntry m c).isCancelled = true := by
  by_cases hc : strIncludes m (chars "말소")
  · simp [buildSectionAEntry, hc]
  · exfalso
    apply h
    simp [buildSectionAEntry, hc]

/-- A built section-B entry never carries a cancellation reference. -/
theorem buildB_cancelInfo_none (m : List Char) (c : Caps) :
    (buildSectionBEntry m c).cancellationInfo = none := by
  simp [buildSectionBEntry]

/-- The cancellation flag of a built section-A entry is exactly the 말소
containment test of its matched row text. -/
theorem buildA_isCancelled (m : List Char) (c : Caps) :
    (buildSectionAEntry m c).isCancelled = strIncludes m (chars "말소") := rfl

/-- The cancellation reference of a built section-A entry is the group of
the first `\d+번…말소` match of its row text when the flag is set, and
nothing otherwise. -/
theorem buildA_cancelInfo (m : List Char) (c : Caps) :
    (buildSectionAEntry m c).cancellationInfo =
      (if strIncludes m (chars "말소") = true then reGroup reCancelRef 1 m
       else none) := rfl

/-- The cancellation flag of a built section-B entry is exactly the 말소
containment test of its matched row text. -/
theorem buildB_isCancelled (m : List Char) (c : Caps) :
    (buildSectionBEntry m c).isCancelled = strIncludes m (chars "말소") := rfl

/-! ## Consumption lemmas for the amount pattern -/

theorem matchR_lit_sound :
    ∀ (f : Nat) (l s : List Char) (c : Caps) k r,
      matchR f (.lit l) s c k = some r →
      ∃ v, s = l ++ v ∧ k v c = some r := by
  intro f l s c k r hm
  cases f with
  | zero => simp [matchR] at hm
  | succ f0 =>
    simp only [matchR] at hm
    by_cases hp : l.isPrefixOf s
    · obtain ⟨v, rfl⟩ := List.isPrefixOf_iff_prefix.mp hp
      rw [List.drop_left] at hm
      · exact ⟨v, rfl, by simpa [hp] using hm⟩
    · simp [hp] at hm

theorem matchR_cls_sound :
    ∀ (f : Nat) (p : Char → Bool) (s : List Char) (c : Caps) k r,
      matchR f (.cls p) s c k = some r →
      ∃ x v, s = x :: v ∧ p x = true ∧ k v c = some r := by
  intro f p s c k r hm
  cases f with
  | zero => simp [matchR] at hm
  | succ f0 =>
    simp only [matchR] at hm
    cases s with
    | nil => simp at hm
    | cons x v =>
      by_cases hp : p x
      · exact ⟨x, v, rfl, hp, by simpa [hp] using hm⟩
      · simp [hp] at hm

theorem matchR_starCls_sound (p : Char → Bool) :
    ∀ (f : Nat) (s : List Char) (c : Caps) k r,
      matchR f (.star (.cls p) true) s c k = some r →
      ∃ u v, s = u ++ v ∧ (∀ x ∈ u, p x = true) ∧ k v c = some r := by
  intro f
  induction f with
  | zero => intro s c k r hm; simp [matchR] at hm
  | succ f0 ih =>
    intro s c k r hm
    simp only [matchR, if_true] at hm
    cases ha : matchR f0 (.cls p) s c (fun s1 c1 =>
        if s1.length = s.length then none
        else matchR f0 (.star (.cls p) true) s1 c1 k) with
    | some v0 =>
      rw [ha] at hm
      simp only [Option.orElse] at hm
      have ha2 := ha.trans hm
      obtain ⟨x, v, rfl, hx, hk⟩ := matchR_cls_sound f0 p s c _ r ha2
      by_cases hl : v.length = (x :: v).length
      · simp at hl
      · simp only [hl, if_false] at hk
        obtain ⟨u, v2, rfl, hu, hk2⟩ := ih v c k r hk
        refine ⟨x :: u, v2, rfl, ?_, hk2⟩
        intro y hy
        rcases List.mem_cons.mp hy with rfl | hy
        · exact hx
        · exact hu y hy
    | none =>
      rw [ha] at hm
      simp only [Option.orElse] at hm
      exact ⟨[], s, rfl, by simp, hm⟩


theorem matchR_seq_sound (f : Nat) (a b : Re) (s : List Char) (c : Caps) k r
    (hm : matchR f (.seq a b) s c k = some r) :
    ∃ f0, f = f0 + 1 ∧
      matchR f0 a s c (fun s1 c1 => matchR f0 b s1 c1 k) = some r := by
  cases f with
  | zero => simp [matchR] at hm
  | succ f0 => exact ⟨f0, rfl, hm⟩

theorem matchR_group_sound (f : Nat) (n : Nat) (a : Re) (s : List Char)
    (c : Caps) k r (hm : matchR f (.group n a) s c k = some r) :
    ∃ f0, f = f0 + 1 ∧
      matchR f0 a s c (fun s1 c1 =>
        k s1 (capInsert n (s.take (s.length - s1.length)) c1)) = some r := by
  cases f with
  | zero => simp [matchR] at hm
  | succ f0 => exact ⟨f0, rfl, hm⟩

theorem matchR_reAmount_sound :
    ∀ (f : Nat) (s : List Char) (c : Caps) k r,
      matchR f reAmount s c k = some r →
      ∃ w1 g w2 v,
        s = chars "금" ++ w1 ++ g ++ w2 ++ chars "원" ++ v ∧
        (∀ x ∈ w1, jsWs x = true) ∧ (∀ x ∈ w2, jsWs x = true) ∧
        g ≠ [] ∧ (∀ x ∈ g, isDigitComma x = true) ∧
        k v (capInsert 1 g c) = some r := by
  intro f s c k r hm
  obtain ⟨f0, rfl, h1⟩ := matchR_seq_sound f _ _ s c k r hm
  obtain ⟨s1, rfl, h2⟩ := matchR_lit_sound f0 _ _ c _ r h1
  obtain ⟨f1, rfl, h3⟩ := matchR_seq_sound f0 _ _ s1 c k r h2
  obtain ⟨w1, v1, rfl, hw1, h4⟩ := matchR_starCls_sound jsWs f1 _ c _ r h3
  obtain ⟨f2, rfl, h5⟩ := matchR_seq_sound f1 _ _ v1 c k r h4
  obtain ⟨f3, rfl, h6⟩ := matchR_group_sound f2 1 _ v1 c _ r h5
  obtain ⟨f4, rfl, h7⟩ := matchR_seq_sound f3 _ _ v1 c _ r h6
  obtain ⟨x, v2, rfl, hx, h8⟩ := matchR_cls_sound f4 isDigitComma _ c _ r h7
  obtain ⟨u, v3, rfl, hu, h9⟩ := matchR_starCls_sound isDigitComma f4 _ c _ r h8
  have htake : (x :: (u ++ v3)).take ((x :: (u ++ v3)).length - v3.length) =
      x :: u := by
    have h1 : x :: (u ++ v3) = (x :: u) ++ v3 := by simp
    have h2 : (x :: (u ++ v3)).length - v3.length = (x :: u).length := by
      simp only [List.length_cons, List.length_append]
      omega
    rw [h2, h1]
    exact List.take_left (x :: u) v3
  rw [htake] at h9
  obtain ⟨f5, hf5, h10⟩ := matchR_seq_sound _ _ _ v3 _ k r h9
  obtain ⟨w2, v4, rfl, hw2, h11⟩ :=
    matchR_starCls_sound jsWs f5 _ _ _ r h10
  obtain ⟨v5, rfl, h12⟩ := matchR_lit_sound f5 _ _ _ _ r h11
  refine ⟨w1, x :: u, w2, v5, by simp, hw1, hw2, by simp, ?_, h12⟩
  intro y hy
  rcases List.mem_cons.mp hy with rfl | hy
  · exact hx
  · exact hu y hy

theorem mem_of_jsWs (c : Char) (h : jsWs c = true) :
    c ∈ [' ', '\n', '\t', '\r', '\x0b', '\x0c'] := by
  simp only [jsWs, Bool.or_eq_true, decide_eq_true_eq] at h
  simp only [List.mem_cons, List.not_mem_nil, or_false]
  tauto

theorem jsWs_of_isDigitComma (c : Char) (h : isDigitComma c = true) :
    jsWs c = false := by
  rw [Bool.eq_false_iff]
  intro hw
  have hm := mem_of_jsWs c hw
  simp only [isDigitComma, Bool.or_eq_true, decide_eq_true_eq] at h
  rcases h with h | rfl
  · fin_cases hm <;> exact absurd h (by decide)
  · exact absurd hm (by decide)

theorem isDigitComma_of_jsWs (c : Char) (h : jsWs c = true) :
    isDigitComma c = false := by
  rw [Bool.eq_false_iff]
  intro hd
  have hm := mem_of_jsWs c h
  simp only [isDigitComma, Bool.or_eq_true, decide_eq_true_eq] at hd
  rcases hd with hd | rfl
  · fin_cases hm <;> exact absurd hd (by decide)
  · exact absurd hm (by decide)

theorem matchR_lit_complete (f : Nat) (l v : List Char) (c : Caps) k res
    (hk : k v c = some res) :
    matchR (f + 1) (.lit l) (l ++ v) c k = some res := by
  have hp : l.isPrefixOf (l ++ v) = true :=
    List.isPrefixOf_iff_prefix.mpr ⟨v, rfl⟩
  simp only [matchR, hp, if_true, List.drop_left]
  exact hk

theorem matchR_cls_complete (f : Nat) (p : Char → Bool) (x : Char)
    (v : List Char) (c : Caps) k res (hx : p x = true)
    (hk : k v c = some res) :
    matchR (f + 1) (.cls p) (x :: v) c k = some res := by
  simp only [matchR, hx, if_true]
  exact hk

theorem matchR_starCls_complete (p : Char → Bool) :
    ∀ (u : List Char) (f : Nat) (v : List Char) (c : Caps) k res,
      u.length + 1 ≤ f → (∀ x ∈ u, p x = true) → headNotB p v = true →
      k v c = some res →
      matchR f (.star (.cls p) true) (u ++ v) c k = some res := by
  intro u
  induction u with
  | nil =>
    intro f v c k res hf hu hv hk
    obtain ⟨f0, rfl⟩ : ∃ q, f = q + 1 := ⟨f - 1, by omega⟩
    have hinner : matchR f0 (.cls p) ([] ++ v) c (fun s1 c1 =>
        if s1.length = ([] ++ v : List Char).length then none
        else matchR f0 (.star (.cls p) true) s1 c1 k) = none := by
      cases f0 with
      | zero => simp [matchR]
      | succ f1 =>
        cases v with
        | nil => simp [matchR]
        | cons y t =>
          simp only [headNotB, Bool.not_eq_true'] at hv
          simp [matchR, hv]
    simp only [matchR, if_true, hinner, Option.orElse]
    simpa using hk
  | cons x u2 ih =>
    intro f v c k res hf hu hv hk
    have hf2 : u2.length + 2 ≤ f := by
      simp only [List.length_cons] at hf
      omega
    obtain ⟨f0, rfl⟩ : ∃ q, f = q + 1 := ⟨f - 1, by omega⟩
    obtain ⟨f1, rfl⟩ : ∃ q, f0 = q + 1 := ⟨f0 - 1, by omega⟩
    have hx : p x = true := hu x (List.mem_cons_self x u2)
    have hrec : matchR (f1 + 1) (.star (.cls p) true) (u2 ++ v) c k =
        some res := by
      apply ih
      · omega
      · intro y hy
        exact hu y (List.mem_cons_of_mem x hy)
      · exact hv
      · exact hk
    have hlen : ¬((u2 ++ v).length = ((x :: u2) ++ v : List Char).length) := by
      simp
    have hcont : (fun s1 c1 =>
        if s1.length = ((x :: u2) ++ v : List Char).length then none
        else matchR (f1 + 1) (.star (.cls p) true) s1 c1 k) (u2 ++ v) c =
        some res := by
      show (if (u2 ++ v).length = ((x :: u2) ++ v : List Char).length then none
        else matchR (f1 + 1) (.star (.cls p) true) (u2 ++ v) c k) = some res
      rw [if_neg hlen]
      exact hrec
    have hinner : matchR (f1 + 1) (.cls p) ((x :: u2) ++ v) c (fun s1 c1 =>
        if s1.length = ((x :: u2) ++ v : List Char).length then none
        else matchR (f1 + 1) (.star (.cls p) true) s1 c1 k) = some res :=
      matchR_cls_complete f1 p x (u2 ++ v) c _ res hx hcont
    show (matchR (f1 + 1) (.cls p) ((x :: u2) ++ v) c (fun s1 c1 =>
        if s1.length = ((x :: u2) ++ v : List Char).length then none
        else matchR (f1 + 1) (.star (.cls p) true) s1 c1 k)).orElse
      (fun _ => k ((x :: u2) ++ v) c) = some res
    rw [hinner]
    rfl

theorem matchR_reAmount_complete (w1 g w2 v : List Char) (c : Caps)
    (k : List Char → Caps → Option (List Char × Caps)) (res : List Char × Caps)
    (f : Nat) (hf : w1.length + g.length + w2.length + 12 ≤ f)
    (hw1 : ∀ x ∈ w1, jsWs x = true) (hw2 : ∀ x ∈ w2, jsWs x = true)
    (hg : g ≠ []) (hgc : ∀ x ∈ g, isDigitComma x = true)
    (hk : k v (capInsert 1 g c) = some res) :
    matchR f reAmount
      (chars "금" ++ (w1 ++ (g ++ (w2 ++ (chars "원" ++ v))))) c k =
      some res := by
  obtain ⟨d, g2, rfl⟩ : ∃ d g2, g = d :: g2 := by
    cases g with
    | nil => exact absurd rfl hg
    | cons d g2 => exact ⟨d, g2, rfl⟩
  simp only [List.length_cons] at hf
  obtain ⟨f5, rfl⟩ : ∃ q, f = q + 6 := ⟨f - 6, by omega⟩
  have hHeadWon : headNotB jsWs (chars "원" ++ v) = true := by
    show headNotB jsWs ('원' :: v) = true
    simp only [headNotB]
    decide
  have hHeadR3 : headNotB isDigitComma (w2 ++ (chars "원" ++ v)) = true := by
    cases w2 with
    | nil =>
      show headNotB isDigitComma ('원' :: v) = true
      simp only [headNotB]
      decide
    | cons y w2t =>
      show headNotB isDigitComma (y :: (w2t ++ (chars "원" ++ v))) = true
      simp only [headNotB, isDigitComma_of_jsWs y (hw2 y (List.mem_cons_self y w2t))]
      rfl
  have hHeadG : headNotB jsWs
      ((d :: g2) ++ (w2 ++ (chars "원" ++ v))) = true := by
    show headNotB jsWs (d :: (g2 ++ (w2 ++ (chars "원" ++ v)))) = true
    simp only [headNotB,
      jsWs_of_isDigitComma d (hgc d (List.mem_cons_self d g2))]
    rfl
  have hTake : ((d :: g2) ++ (w2 ++ (chars "원" ++ v))).take
      (((d :: g2) ++ (w2 ++ (chars "원" ++ v))).length -
        (w2 ++ (chars "원" ++ v)).length) = d :: g2 := by
    have hlen2 : ((d :: g2) ++ (w2 ++ (chars "원" ++ v))).length -
        (w2 ++ (chars "원" ++ v)).length = (d :: g2).length := by
      simp only [List.length_append]
      omega
    rw [hlen2]
    exact List.take_left (d :: g2) (w2 ++ (chars "원" ++ v))
  have h1 : matchR (f5 + 2) (.lit (chars "원")) (chars "원" ++ v)
      (capInsert 1 (d :: g2) c) k = some res :=
    matchR_lit_complete (f5 + 1) _ v _ k res hk
  have h2 : matchR (f5 + 3) (.seq rws (.lit (chars "원")))
      (w2 ++ (chars "원" ++ v)) (capInsert 1 (d :: g2) c) k = some res := by
    show matchR (f5 + 2) rws (w2 ++ (chars "원" ++ v))
      (capInsert 1 (d :: g2) c)
      (fun s1 c1 => matchR (f5 + 2) (.lit (chars "원")) s1 c1 k) = some res
    exact matchR_starCls_complete jsWs w2 (f5 + 2) (chars "원" ++ v) _ _ res
      (by omega) hw2 hHeadWon h1
  have h3 : matchR (f5 + 3) (.seq rws (.lit (chars "원")))
      (w2 ++ (chars "원" ++ v))
      (capInsert 1 (((d :: g2) ++ (w2 ++ (chars "원" ++ v))).take
        (((d :: g2) ++ (w2 ++ (chars "원" ++ v))).length -
          (w2 ++ (chars "원" ++ v)).length)) c) k = some res := by
    rw [hTake]
    exact h2
  have h5 : matchR (f5 + 1) (.star (.cls isDigitComma) true)
      (g2 ++ (w2 ++ (chars "원" ++ v))) c
      (fun s1 c1 => matchR (f5 + 3) (.seq rws (.lit (chars "원"))) s1
        (capInsert 1 (((d :: g2) ++ (w2 ++ (chars "원" ++ v))).take
          (((d :: g2) ++ (w2 ++ (chars "원" ++ v))).length - s1.length)) c1) k) =
      some res := by
    apply matchR_starCls_complete isDigitComma g2 (f5 + 1)
      (w2 ++ (chars "원" ++ v)) c _ res (by omega)
      (fun y hy => hgc y (List.mem_cons_of_mem d hy)) hHeadR3
    exact h3
  have h6 : matchR (f5 + 1) (.cls isDigitComma)
      ((d :: g2) ++ (w2 ++ (chars "원" ++ v))) c
      (fun s0 c0 => matchR (f5 + 1) (.star (.cls isDigitComma) true) s0 c0
        (fun s1 c1 => matchR (f5 + 3) (.seq rws (.lit (chars "원"))) s1
          (capInsert 1 (((d :: g2) ++ (w2 ++ (chars "원" ++ v))).take
            (((d :: g2) ++ (w2 ++ (chars "원" ++ v))).length - s1.length)) c1)
          k)) = some res := by
    apply matchR_cls_complete f5 isDigitComma d
      (g2 ++ (w2 ++ (chars "원" ++ v))) c _ res
      (hgc d (List.mem_cons_self d g2))
    exact h5
  have h7 : matchR (f5 + 2) (rplus isDigitComma)
      ((d :: g2) ++ (w2 ++ (chars "원" ++ v))) c
      (fun s1 c1 => matchR (f5 + 3) (.seq rws (.lit (chars "원"))) s1
        (capInsert 1 (((d :: g2) ++ (w2 ++ (chars "원" ++ v))).take
          (((d :: g2) ++ (w2 ++ (chars "원" ++ v))).length - s1.length)) c1) k) =
      some res := h6
  have h8 : matchR (f5 + 3) (.group 1 (rplus isDigitComma))
      ((d :: g2) ++ (w2 ++ (chars "원" ++ v))) c
      (fun s1 c1 => matchR (f5 + 3) (.seq rws (.lit (chars "원"))) s1 c1 k) =
      some res := h7
  have h9 : matchR (f5 + 4)
      (.seq (.group 1 (rplus isDigitComma)) (.seq rws (.lit (chars "원"))))
      ((d :: g2) ++ (w2 ++ (chars "원" ++ v))) c k = some res := h8
  have h10 : matchR (f5 + 4) rws
      (w1 ++ ((d :: g2) ++ (w2 ++ (chars "원" ++ v)))) c
      (fun s1 c1 => matchR (f5 + 4)
        (.seq (.group 1 (rplus isDigitComma)) (.seq rws (.lit (chars "원"))))
        s1 c1 k) = some res := by
    apply matchR_starCls_complete jsWs w1 (f5 + 4)
      ((d :: g2) ++ (w2 ++ (chars "원" ++ v))) c _ res (by omega) hw1 hHeadG
    exact h9
  have h11 : matchR (f5 + 5)
      (.seq rws (.seq (.group 1 (rplus isDigitComma))
        (.seq rws (.lit (chars "원")))))
      (w1 ++ ((d :: g2) ++ (w2 ++ (chars "원" ++ v)))) c k = some res := h10
  have h12 : matchR (f5 + 5) (.lit (chars "금"))
      (chars "금" ++ (w1 ++ ((d :: g2) ++ (w2 ++ (chars "원" ++ v))))) c
      (fun s1 c1 => matchR (f5 + 5)
        (.seq rws (.seq (.group 1 (rplus isDigitComma))
          (.seq rws (.lit (chars "원"))))) s1 c1 k) = some res := by
    apply matchR_lit_complete (f5 + 4) (chars "금")
      (w1 ++ ((d :: g2) ++ (w2 ++ (chars "원" ++ v)))) c _ res
    exact h11
  exact h12

theorem reFirst_reAmount_sound :
    ∀ (t m : List Char) (cps : Caps) (rest : List Char),
      reFirst reAmount t = some (m, cps, rest) →
      ∃ pre w1 g w2,
        t = pre ++ chars "금" ++ w1 ++ g ++ w2 ++ chars "원" ++ rest ∧
        (∀ x ∈ w1, jsWs x = true) ∧ (∀ x ∈ w2, jsWs x = true) ∧
        g ≠ [] ∧ (∀ x ∈ g, isDigitComma x = true) ∧
        capLookup 1 cps = some g := by
  intro t
  induction t with
  | nil =>
    intro m cps rest h
    rw [reFirst] at h
    split at h
    case _ s1 c1 heq =>
      obtain ⟨w1, g, w2, v, habs, -, -, -, -, -⟩ :=
        matchR_reAmount_sound _ _ [] _ _ heq
      exact absurd habs (by simp [chars])
    case _ => simp at h
  | cons x t2 ih =>
    intro m cps rest h
    rw [reFirst] at h
    split at h
    case _ s1 c1 heq =>
      obtain ⟨w1, g, w2, v, hs, hw1, hw2, hg, hgc, hk⟩ :=
        matchR_reAmount_sound _ _ [] _ _ heq
      simp only [Option.some.injEq, Prod.mk.injEq] at h
      obtain ⟨-, hc, hr⟩ := h
      simp only [Option.some.injEq, Prod.mk.injEq] at hk
      obtain ⟨hv, hcap⟩ := hk
      refine ⟨[], w1, g, w2, ?_, hw1, hw2, hg, hgc, ?_⟩
      · rw [← hr, ← hv]
        simpa [List.append_assoc] using hs
      · rw [← hc, ← hcap, capLookup_insert_self]
    case _ =>
      obtain ⟨pre, w1, g, w2, hs, hw1, hw2, hg, hgc, hcap⟩ :=
        ih m cps rest h
      exact ⟨x :: pre, w1, g, w2, by simp [hs], hw1, hw2, hg, hgc, hcap⟩

theorem reFirst_some_of_matchR (re : Re) :
    ∀ (pre s : List Char),
      (∃ out, matchR (s.length + 100) re s []
        (fun s1 c1 => some (s1, c1)) = some out) →
      ∃ out2, reFirst re (pre ++ s) = some out2 := by
  intro pre
  induction pre with
  | nil =>
    intro s hm
    obtain ⟨out, hout⟩ := hm
    obtain ⟨s1, c1⟩ := out
    rw [List.nil_append]
    cases s with
    | nil =>
      rw [reFirst, hout]
      exact ⟨_, rfl⟩
    | cons y t =>
      rw [reFirst, hout]
      exact ⟨_, rfl⟩
  | cons x pre2 ih =>
    intro s hm
    rw [List.cons_append, reFirst]
    cases hmm : matchR ((x :: (pre2 ++ s)).length + 100) re (x :: (pre2 ++ s))
        [] (fun s1 c1 => some (s1, c1)) with
    | some out3 =>
      obtain ⟨s1, c1⟩ := out3
      exact ⟨_, rfl⟩
    | none =>
      show ∃ out2, reFirst re (pre2 ++ s) = some out2
      exact ih s hm

/-! ## Claims -/

/-- C1 (corrected): only rows whose registration-type text begins with one
of the known keywords produce entries, and every emitted entry's
registration type is exactly one of those keywords; a row matching no
keyword is discarded rather than emitted as a minimal entry. -/
theorem c1_only_keyword_rows_emitted (t : List Char) :
    (∀ e ∈ parseSectionAEntries t, e.registrationType ∈ kwListA) ∧
    (∀ e ∈ parseSectionBEntries t, e.registrationType ∈ kwListB) :=
  ⟨fun e he => parseSectionA_regType t e he,
   fun e he => parseSectionB_regType t e he⟩

/-- C1 counterexample: the ownership section of this text contains the row
"1 신탁 " whose registration type matches no known keyword, and the parser
emits no entry at all for it — the row is discarded, contradicting the
claimed minimal-entry fallback. -/
theorem c1_counterexample_unmatched_row_dropped :
    parseSectionAEntries (chars "【갑구】\n1 신탁 \n") = [] ∧
    strIncludes (chars "【갑구】\n1 신탁 \n") (chars "1 신탁") = true := by
  constructor
  · decide
  · decide

/-- C1 witness: a keyword row is parsed and its registration type is a
member of the keyword list, by the main theorem. -/
theorem c1_witness :
    firstRegTypeA (chars "【갑구】\n1 소유권보존 \n") =
      some (chars "소유권보존") ∧
    chars "소유권보존" ∈ kwListA := by
  have hs : ((parseSectionAEntries
      (chars "【갑구】\n1 소유권보존 \n")).head?).isSome = true := by decide
  obtain ⟨e, he⟩ := Option.isSome_iff_exists.mp hs
  have hin := List.mem_of_mem_head? he
  have hmem := (c1_only_keyword_rows_emitted
    (chars "【갑구】\n1 소유권보존 \n")).1 e hin
  have hft : firstRegTypeA (chars "【갑구】\n1 소유권보존 \n") =
      some (chars "소유권보존") := by decide
  refine ⟨hft, ?_⟩
  have he2 : e.registrationType = chars "소유권보존" := by
    rw [firstRegTypeA, he] at hft
    simpa using hft
  rw [← he2]
  exact hmem

/-- C2 (corrected): every parsed entry arises from a row match of its
section, its cancellation flag is exactly the 말소-containment test of that
matched row text (so a row containing 말소 is always flagged), and whenever
the flag is set the ownership entry stores the group of the first
`\d+번…말소` match of the row verbatim — with no check that an entry of
that rank exists earlier; an unflagged entry stores nothing, and
encumbrance entries never store a reference. -/
theorem c2_cancellation_reference_behaviour (t : List Char) :
    (∀ e ∈ parseSectionAEntries t,
      ∃ s0 m c rest, reFirst rowReA s0 = some (m, c, rest) ∧
        e = buildSectionAEntry m c ∧
        e.isCancelled = strIncludes m (chars "말소") ∧
        (e.isCancelled = true → e.cancellationInfo = reGroup reCancelRef 1 m) ∧
        (e.isCancelled = false → e.cancellationInfo = none)) ∧
    (∀ e ∈ parseSectionBEntries t,
      ∃ s0 m c rest, reFirst rowReB s0 = some (m, c, rest) ∧
        e = buildSectionBEntry m c ∧
        e.isCancelled = strIncludes m (chars "말소") ∧
        e.cancellationInfo = none) := by
  constructor
  · intro e he
    rw [parseSectionAEntries] at he
    split at he
    case _ => simp at he
    case _ sText c1 rest1 heq =>
      obtain ⟨mc, hmc, rfl⟩ := List.mem_map.mp he
      obtain ⟨s0, rest0, hfirst⟩ := execLoop_mem rowReA _ sText mc hmc
      refine ⟨s0, mc.1, mc.2, rest0, hfirst, rfl,
        buildA_isCancelled mc.1 mc.2, ?_, ?_⟩
      · intro hic
        rw [buildA_isCancelled] at hic
        rw [buildA_cancelInfo, if_pos hic]
      · intro hic
        rw [buildA_isCancelled] at hic
        rw [buildA_cancelInfo, if_neg (by simp [hic])]
  · intro e he
    rw [parseSectionBEntries] at he
    split at he
    case _ => simp at he
    case _ sText c1 rest1 heq =>
      obtain ⟨mc, hmc, rfl⟩ := List.mem_map.mp he
      obtain ⟨s0, rest0, hfirst⟩ := execLoop_mem rowReB _ sText mc hmc
      exact ⟨s0, mc.1, mc.2, rest0, hfirst, rfl,
        buildB_isCancelled mc.1 mc.2, buildB_cancelInfo_none mc.1 mc.2⟩

/-- C2 counterexample: this ownership section has a single entry of rank
"1"; no entry of rank "2" exists earlier, yet the parser sets the
cancellation reference (to the whole matched substring, not to "2"),
contradicting the claim that the reference is left unset when no earlier
entry with that rank exists. -/
theorem c2_counterexample_reference_without_antecedent :
    sectionACancelMarks (chars "【갑구】\n1 등기말소 2번가압류말소 \n") =
      [(chars "1", true, some (chars "2번가압류말소"))] := by
  decide

/-- C2 witness: at a concrete input whose first entry carries a
cancellation reference, the main theorem forces the cancellation flag
(were the flag false, the theorem would make the reference empty). -/
theorem c2_witness :
    ((parseSectionAEntries
      (chars "【갑구】\n1 등기말소 2번가압류말소 \n")).head?).map
        (fun e => e.isCancelled) = some true := by
  have hs : ((parseSectionAEntries
      (chars "【갑구】\n1 등기말소 2번가압류말소 \n")).head?).isSome = true := by
    decide
  obtain ⟨e, he⟩ := Option.isSome_iff_exists.mp hs
  have hin := List.mem_of_mem_head? he
  obtain ⟨s0, m, c, rest, -, -, -, -, hnone⟩ :=
    (c2_cancellation_reference_behaviour
      (chars "【갑구】\n1 등기말소 2번가압류말소 \n")).1 e hin
  have hv : ((parseSectionAEntries
      (chars "【갑구】\n1 등기말소 2번가압류말소 \n")).head?).map
        (fun e => e.cancellationInfo) =
      some (some (chars "2번가압류말소")) := by decide
  rw [he] at hv
  simp only [Option.map_some', Option.some.injEq] at hv
  cases hic : e.isCancelled with
  | true =>
    rw [he]
    simp [hic]
  | false =>
    rw [hnone hic] at hv
    cases hv

/-- C3 (corrected): every parsed entry of either section has a non-empty
registration type; rank-number uniqueness fails (see the counterexample). -/
theorem c3_nonempty_registration_type (t : List Char) :
    (∀ e ∈ parseSectionAEntries t, e.registrationType ≠ []) ∧
    (∀ e ∈ parseSectionBEntries t, e.registrationType ≠ []) := by
  constructor
  · intro e he
    exact kwListA_ne_nil e.registrationType (parseSectionA_regType t e he)
  · intro e he
    exact kwListB_ne_nil e.registrationType (parseSectionB_regType t e he)

/-- C3 counterexample: two rows with the same rank number "1" are both
emitted, so rank numbers are not unique within a section. -/
theorem c3_counterexample_duplicate_ranks :
    sectionARanks (chars "【갑구】\n1 소유권보존 \n1 소유권이전 \n") =
      [chars "1", chars "1"] := by
  decide

/-- C3 witness: the main theorem applied to the first entry of a concrete
parse. -/
theorem c3_witness :
    firstRegTypeA (chars "【갑구】\n1 소유권보존 \n") ≠ some [] := by
  have hs : ((parseSectionAEntries
      (chars "【갑구】\n1 소유권보존 \n")).head?).isSome = true := by decide
  obtain ⟨e, he⟩ := Option.isSome_iff_exists.mp hs
  have hin := List.mem_of_mem_head? he
  have hne := (c3_nonempty_registration_type
    (chars "【갑구】\n1 소유권보존 \n")).1 e hin
  rw [firstRegTypeA, he]
  simp only [Option.map_some', ne_eq, Option.some.injEq]
  exact hne

/-- The full behaviour of `maskForDemo`: field preservation, take-1
truncations, masked owners in the kept ownership entry, and stripped
monetary/party fields in the kept encumbrance entry.  Shared between the
mask contract and the demo-response claims. -/
theorem maskForDemo_contract_all (d : RegistryData) :
    (maskForDemo d).uniqueNumber = d.uniqueNumber ∧
    (maskForDemo d).propertyType = d.propertyType ∧
    (maskForDemo d).propertyAddress = d.propertyAddress ∧
    (maskForDemo d).parseDate = d.parseDate ∧
    (maskForDemo d).titleInfo.areas = d.titleInfo.areas.take 1 ∧
    (maskForDemo d).sectionA.length ≤ 1 ∧
    (maskForDemo d).sectionB.length ≤ 1 ∧
    (∀ e ∈ (maskForDemo d).sectionA,
      ∃ e0, d.sectionA.head? = some e0 ∧ e = maskSectionAEntryDemo e0 ∧
        ∀ o ∈ e.owners, ∃ o0 ∈ e0.owners, o = maskOwner o0 ∧
          (o.residentNumber = none ∨
            o.residentNumber = some (chars "******-*******")) ∧
          (o.address = none ∨ ∃ a0, o0.address = some a0 ∧
            o.address = some (a0.take 10 ++ chars "..."))) ∧
    (∀ mb ∈ (maskForDemo d).sectionB,
      ∃ b0, d.sectionB.head? = some b0 ∧ mb = maskSectionBEntryDemo b0 ∧
        mb.maxClaimAmount = none ∧ mb.depositAmount = none ∧
        mb.mortgagee = none ∧ mb.lessee = none ∧ mb.leaseTerm = none) := by
  refine ⟨rfl, rfl, rfl, rfl, rfl, ?_, ?_, ?_, ?_⟩
  · simp [maskForDemo, List.length_take]
  · simp [maskForDemo, List.length_take]
  · intro e he
    simp only [maskForDemo, List.mem_map] at he
    obtain ⟨e0, he0, rfl⟩ := he
    cases hA : d.sectionA with
    | nil => rw [hA] at he0; simp at he0
    | cons a l =>
      rw [hA] at he0
      simp only [List.take_succ_cons, List.take_zero, List.mem_singleton] at he0
      subst he0
      refine ⟨e0, rfl, rfl, ?_⟩
      intro o ho
      simp only [maskSectionAEntryDemo, List.mem_map] at ho
      obtain ⟨o0, ho0, rfl⟩ := ho
      refine ⟨o0, ho0, rfl, ?_, ?_⟩
      · cases hr : o0.residentNumber with
        | none => left; simp [maskOwner, hr]
        | some r =>
          by_cases hre : r = []
          · left; simp [maskOwner, hr, hre]
          · right; simp [maskOwner, hr, hre]
      · cases ha : o0.address with
        | none => left; simp [maskOwner, ha]
        | some a =>
          by_cases hae : a = []
          · left; simp [maskOwner, ha, hae]
          · right; exact ⟨a, rfl, by simp [maskOwner, ha, hae]⟩
  · intro mb hmb
    simp only [maskForDemo, List.mem_map] at hmb
    obtain ⟨b0, hb0, rfl⟩ := hmb
    cases hB : d.sectionB with
    | nil => rw [hB] at hb0; simp at hb0
    | cons b l =>
      rw [hB] at hb0
      simp only [List.take_succ_cons, List.take_zero, List.mem_singleton] at hb0
      subst hb0
      exact ⟨b0, rfl, rfl, rfl, rfl, rfl, rfl, rfl⟩


/-- C4 (confirmed): `maskForDemo` preserves the unique number, property
type, property address and parse date exactly, keeps at most the first
entry of each section (removing all later entries and so their identifiers
and amounts), truncates the floor areas to the first line, masks the names,
resident numbers and addresses in the kept ownership entry's owners array,
and strips the monetary and party fields of the kept encumbrance entry; it
adds no information that the input document does not contain. -/
theorem c4_maskForDemo_contract (d : RegistryData) :
    (maskForDemo d).uniqueNumber = d.uniqueNumber ∧
    (maskForDemo d).propertyType = d.propertyType ∧
    (maskForDemo d).propertyAddress = d.propertyAddress ∧
    (maskForDemo d).parseDate = d.parseDate ∧
    (maskForDemo d).titleInfo.areas = d.titleInfo.areas.take 1 ∧
    (maskForDemo d).sectionA.length ≤ 1 ∧
    (maskForDemo d).sectionB.length ≤ 1 ∧
    (∀ e ∈ (maskForDemo d).sectionA,
      ∃ e0, d.sectionA.head? = some e0 ∧ e = maskSectionAEntryDemo e0 ∧
        ∀ o ∈ e.owners, ∃ o0 ∈ e0.owners, o = maskOwner o0 ∧
          (o.residentNumber = none ∨
            o.residentNumber = some (chars "******-*******")) ∧
          (o.address = none ∨ ∃ a0, o0.address = some a0 ∧
            o.address = some (a0.take 10 ++ chars "..."))) ∧
    (∀ mb ∈ (maskForDemo d).sectionB,
      ∃ b0, d.sectionB.head? = some b0 ∧ mb = maskSectionBEntryDemo b0 ∧
        mb.maxClaimAmount = none ∧ mb.depositAmount = none ∧
        mb.mortgagee = none ∧ mb.lessee = none ∧ mb.leaseTerm = none) :=
  maskForDemo_contract_all d

/-- C4 witness: the mask contract applied to a concrete document with a
populated owners array and a monetary encumbrance entry. -/
theorem c4_witness :
    (maskForDemo doc0).uniqueNumber = doc0.uniqueNumber ∧
    (maskSectionBEntryDemo b0entry).maxClaimAmount = none := by
  have h := c4_maskForDemo_contract doc0
  refine ⟨h.1, ?_⟩
  obtain ⟨b0, -, -, hmax, -, -, -, -⟩ :=
    (h.2.2.2.2.2.2.2.2) (maskSectionBEntryDemo b0entry) (by decide)
  exact hmax

/-- C5 (confirmed): when neither PDF library yields a text layer the parse
call throws (a non-empty extraction-failure message) and produces no
document; when a text layer is extracted the parse always returns a
document. -/
theorem c5_extraction_contract (pd : List Char) :
    (∃ e, parseRegistryPDF none pd = .error e ∧ e ≠ []) ∧
    (∀ t, ∃ d, parseRegistryPDF (some t) pd = .ok d) :=
  ⟨⟨chars "PDF 텍스트 추출에 실패했습니다.", rfl, by decide⟩,
   fun t => ⟨_, rfl⟩⟩

/-- C6 (corrected): the parse of any text returns a document without
throwing; whenever the 갑구 heading is not found the ownership list is
empty, whenever the 을구 heading is not found the encumbrance list is
empty — each heading independently — and nothing is recorded in either
case (`registryErrors` is constantly empty because the source
`RegistryData` has no `errors` field). -/
theorem c6_missing_heading_empty_and_silent (t pd : List Char) :
    ∃ d, parseRegistryPDF (some t) pd = .ok d ∧
      (reFirst sectionARe t = none → d.sectionA = []) ∧
      (reFirst sectionBRe t = none → d.sectionB = []) ∧
      registryErrors d = [] := by
  refine ⟨_, rfl, ?_, ?_, rfl⟩
  · intro hA
    show parseSectionAEntries t = []
    rw [parseSectionAEntries, hA]
  · intro hB
    show parseSectionBEntries t = []
    rw [parseSectionBEntries, hB]

/-- C6 counterexample: parsing a text with no 갑구 or 을구 heading yields a
document with both entry lists empty and an empty collection of recorded
errors — no `SectionNotFound` is recorded anywhere, contradicting the
claimed `errors[]` entry (the result type has no errors list at all). -/
theorem c6_counterexample_nothing_recorded :
    (parseRegistryPDF (some (chars "등기부등본")) (chars "D")).map
      (fun d => (d.sectionA, d.sectionB, registryErrors d)) =
      .ok ([], [], []) := by
  rfl

/-- C6 witness: the main theorem applied at a text with neither heading
(both lists empty) and at a text with a 갑구 heading but no 을구 heading
(only the encumbrance list forced empty). -/
theorem c6_witness :
    (parseRegistryPDF (some (chars "텍스트")) (chars "D")).map
      (fun d => (d.sectionA.length, d.sectionB.length)) = .ok (0, 0) ∧
    (parseRegistryPDF (some (chars "【갑구】\n1 소유권보존 \n"))
      (chars "D")).map (fun d => d.sectionB.length) = .ok 0 := by
  constructor
  · obtain ⟨d, hok, hA, hB, -⟩ :=
      c6_missing_heading_empty_and_silent (chars "텍스트") (chars "D")
    rw [hok]
    simp [Except.map, hA (by rfl), hB (by rfl)]
  · obtain ⟨d, hok, hA, hB, -⟩ :=
      c6_missing_heading_empty_and_silent
        (chars "【갑구】\n1 소유권보존 \n") (chars "D")
    rw [hok]
    simp [Except.map, hB (by rfl)]

/-- C8 (corrected): the classifier and the parse result are two-valued —
`aggregate_building` exactly when the text contains the 집합건물 marker and
`building` otherwise; the title info always agrees with the document; there
is no `land` value. -/
theorem c8_property_type_two_valued (t pd : List Char) (d : RegistryData)
    (h : parseRegistryPDF (some t) pd = .ok d) :
    (d.propertyType = .building ∨ d.propertyType = .aggregate_building) ∧
    d.propertyType = d.titleInfo.propertyType ∧
    (d.propertyType = .aggregate_building ↔
      strIncludes t (chars "집합건물") = true) := by
  have hd : d = { uniqueNumber := extractUniqueNumber t
                  propertyType := detectPropertyType t
                  propertyAddress := extractAddress t
                  titleInfo := parseTitleSection t
                  sectionA := parseSectionAEntries t
                  sectionB := parseSectionBEntries t
                  trade_lists := none
                  summary := none
                  rawText := t
                  parseDate := pd } := by
    have := h
    rw [parseRegistryPDF] at this
    exact (Except.ok.injEq _ _).mp this |>.symm
  subst hd
  refine ⟨?_, ?_, ?_⟩
  · show detectPropertyType t = .building ∨ detectPropertyType t = .aggregate_building
    rw [detectPropertyType]
    by_cases hm : strIncludes t (chars "집합건물") = true
    · right; simp [hm]
    · left; simp [hm]
  · show detectPropertyType t = (parseTitleSection t).propertyType
    rfl
  · show detectPropertyType t = .aggregate_building ↔ _
    rw [detectPropertyType]
    by_cases hm : strIncludes t (chars "집합건물") = true
    · simp [hm]
    · simp [hm]

/-- C8 counterexample: no input whatsoever is classified as `land` — the
source union type has no such value, so the spec's land classification is
unreachable; in particular a land-only text ("[토지] …") is classified as
`building`. -/
theorem c8_counterexample_no_land :
    (¬ ∃ t, toSpecPropertyType (detectPropertyType t) =
      PropertyTypeSpec.land) ∧
    detectPropertyType (chars "[토지] 서울특별시 관악구") =
      PropertyType.building := by
  constructor
  · rintro ⟨t, ht⟩
    rw [detectPropertyType] at ht
    by_cases hm : strIncludes t (chars "집합건물") = true
    · rw [if_pos hm] at ht
      simp [toSpecPropertyType] at ht
    · rw [if_neg hm] at ht
      simp [toSpecPropertyType] at ht
  · decide

/-- C8 witness: the main theorem at a concrete aggregate-building text. -/
theorem c8_witness :
    (parseRegistryPDF (some (chars "집합건물")) (chars "D")).map
      (fun d => d.propertyType) = .ok PropertyType.aggregate_building := by
  cases hp : parseRegistryPDF (some (chars "집합건물")) (chars "D") with
  | error e => rw [parseRegistryPDF] at hp; cases hp
  | ok d =>
    have h := c8_property_type_two_valued (chars "집합건물") (chars "D") d hp
    have hagg := h.2.2.mpr (by decide)
    simp [Except.map, hagg]

/-- The only throw of `parseRegistryPDF` is the extraction-failure message. -/
theorem parseRegistryPDF_error_msg (ext : Option (List Char))
    (pd e : List Char) (h : parseRegistryPDF ext pd = .error e) :
    e = chars "PDF 텍스트 추출에 실패했습니다." := by
  cases ext with
  | none =>
    rw [parseRegistryPDF] at h
    exact ((Except.error.injEq _ _).mp h).symm
  | some t =>
    rw [parseRegistryPDF] at h
    cases h

/-- C9 (confirmed): `parseAndProcessPDF` always returns a response (the
embedding is a total function — the source wraps the whole body in
`try`/`catch`); `isDemo` is the negation of the paid flag in every outcome,
and on parse failure the response has `success = false`, the (non-empty)
error message and no data. -/
theorem c9_response_total (ext : Option (List Char)) (isPaid : Bool)
    (url : Option (List Char)) (pd rid : List Char) :
    (parseAndProcessPDF ext isPaid url pd rid).isDemo = !isPaid ∧
    (parseAndProcessPDF ext isPaid url pd rid).requestId = rid ∧
    (∀ e, parseRegistryPDF ext pd = .error e →
      (parseAndProcessPDF ext isPaid url pd rid).success = false ∧
      (parseAndProcessPDF ext isPaid url pd rid).error = some e ∧
      e ≠ [] ∧
      (parseAndProcessPDF ext isPaid url pd rid).data = none) ∧
    (∀ d, parseRegistryPDF ext pd = .ok d →
      (parseAndProcessPDF ext isPaid url pd rid).success = true ∧
      (parseAndProcessPDF ext isPaid url pd rid).error = none) := by
  cases hp : parseRegistryPDF ext pd with
  | ok d =>
    refine ⟨?_, ?_, ?_, ?_⟩
    · rw [parseAndProcessPDF, hp]
    · rw [parseAndProcessPDF, hp]
    · intro e he
      cases he
    · intro d2 _
      rw [parseAndProcessPDF, hp]
      exact ⟨rfl, rfl⟩
  | error e0 =>
    refine ⟨?_, ?_, ?_, ?_⟩
    · rw [parseAndProcessPDF, hp]
    · rw [parseAndProcessPDF, hp]
    · intro e he
      have he2 := (Except.error.injEq _ _).mp he
      subst he2
      refine ⟨?_, ?_, ?_, ?_⟩
      · rw [parseAndProcessPDF, hp]
      · rw [parseAndProcessPDF, hp]
      · rw [parseRegistryPDF_error_msg ext pd e0 hp]
        decide
      · rw [parseAndProcessPDF, hp]
    · intro d2 hd2
      cases hd2

/-- C9 witness: the response contract at a failing extraction. -/
theorem c9_witness :
    (parseAndProcessPDF none false none [] (chars "r")).isDemo = true ∧
    (parseAndProcessPDF none false none [] (chars "r")).success = false ∧
    (parseAndProcessPDF none false none [] (chars "r")).data = none := by
  have h := c9_response_total none false none [] (chars "r")
  have herr := h.2.2.1 (chars "PDF 텍스트 추출에 실패했습니다.") (by rfl)
  exact ⟨h.1, herr.1, herr.2.2.2⟩

/-- C10 (corrected): on a successful parse with the paid flag false, the
response's data is exactly the demo-masked value (never the full document):
at most one ownership entry, one encumbrance entry and one floor-area line,
no monetary or mortgagee/lessee detail in the kept encumbrance entry, and
every owner in the kept entry's owners array is a masked owner.  (The
separate `owner` field the parser populates passes through unmasked — see
the counterexample.) -/
theorem c10_demo_data_is_masked (ext : Option (List Char))
    (url : Option (List Char)) (pd rid : List Char) (d : RegistryData)
    (h : parseRegistryPDF ext pd = .ok d) :
    (parseAndProcessPDF ext false url pd rid).data =
      some (.demo (maskForDemo d)) ∧
    (∀ full, (parseAndProcessPDF ext false url pd rid).data ≠
      some (.full full)) ∧
    (maskForDemo d).sectionA.length ≤ 1 ∧
    (maskForDemo d).sectionB.length ≤ 1 ∧
    (maskForDemo d).titleInfo.areas.length ≤ 1 ∧
    (∀ mb ∈ (maskForDemo d).sectionB,
      mb.maxClaimAmount = none ∧ mb.depositAmount = none ∧
      mb.mortgagee = none ∧ mb.lessee = none ∧ mb.leaseTerm = none) ∧
    (∀ e ∈ (maskForDemo d).sectionA, ∀ o ∈ e.owners,
      ∃ o0, o = maskOwner o0) := by
  have hc4 := maskForDemo_contract_all d
  refine ⟨?_, ?_, hc4.2.2.2.2.2.1, hc4.2.2.2.2.2.2.1, ?_, ?_, ?_⟩
  · rw [parseAndProcessPDF, h]
    rfl
  · intro full
    rw [parseAndProcessPDF, h]
    simp
  · rw [hc4.2.2.2.2.1]
    simp [List.length_take]
  · intro mb hmb
    obtain ⟨b0, -, -, h1, h2, h3, h4, h5⟩ :=
      hc4.2.2.2.2.2.2.2.2 mb hmb
    exact ⟨h1, h2, h3, h4, h5⟩
  · intro e he o ho
    obtain ⟨e0, -, -, hown⟩ := hc4.2.2.2.2.2.2.2.1 e he
    obtain ⟨o0, -, ho0, -⟩ := hown o ho
    exact ⟨o0, ho0⟩

/-- C10 counterexample: for this input the demo response's first ownership
entry still carries the owner's full, unmasked name under the `owner`
field — the parser stores the owner there while `maskForDemo` rewrites only
the (empty) `owners` array, so the demo response is not limited to masked
names. -/
theorem c10_counterexample_owner_name_unmasked :
    demoFirstOwnerName (parseAndProcessPDF
      (some (chars "【갑구】\n1 소유권이전 소유자 홍길동 \n")) false none []
      (chars "r")) = some (chars "홍길동") ∧
    chars "홍길동" ≠ chars "홍*동" := by
  constructor
  · decide
  · decide

/-- C10 witness: the main theorem at a concrete successful demo parse. -/
theorem c10_witness :
    isDemoPayload (parseAndProcessPDF
      (some (chars "【갑구】\n1 소유권이전 소유자 홍길동 \n")) false none []
      (chars "r")) = true := by
  cases hp : parseRegistryPDF
      (some (chars "【갑구】\n1 소유권이전 소유자 홍길동 \n")) [] with
  | error e => rw [parseRegistryPDF] at hp; cases hp
  | ok d =>
    have h := c10_demo_data_is_masked
      (some (chars "【갑구】\n1 소유권이전 소유자 홍길동 \n")) none []
      (chars "r") d hp
    rw [isDemoPayload, h.1]

/-- C7 (corrected): if the amount parser returns a value, the text contains
a substring 금⟨ws⟩G⟨ws⟩원 with G a non-empty run of digits and commas, and
the value is `parseInt` of G with commas stripped — an integer when G holds
a digit, `NaN` when G is commas only (see the counterexample); conversely
every text containing such a substring yields a value, and a text with no
such substring yields none (the contrapositive of the first conjunct). -/
theorem c7_parseAmount_characterization :
    (∀ (t : List Char) (j : JsNum), parseAmount t = some j →
      ∃ pre w1 g w2 post,
        t = pre ++ chars "금" ++ w1 ++ g ++ w2 ++ chars "원" ++ post ∧
        (∀ x ∈ w1, jsWs x = true) ∧ (∀ x ∈ w2, jsWs x = true) ∧
        g ≠ [] ∧ (∀ x ∈ g, isDigitComma x = true) ∧
        j = jsParseInt (g.filter (fun c => c ≠ ','))) ∧
    (∀ pre w1 g w2 post : List Char,
      (∀ x ∈ w1, jsWs x = true) → (∀ x ∈ w2, jsWs x = true) →
      g ≠ [] → (∀ x ∈ g, isDigitComma x = true) →
      ∃ j, parseAmount
        (pre ++ chars "금" ++ w1 ++ g ++ w2 ++ chars "원" ++ post) =
          some j) := by
  constructor
  · intro t j hj
    by_cases ht : t = []
    · rw [parseAmount, if_pos ht] at hj
      cases hj
    · rw [parseAmount, if_neg ht] at hj
      cases hr : reFirst reAmount t with
      | none => rw [hr] at hj; cases hj
      | some out =>
        obtain ⟨m, cps, rest⟩ := out
        rw [hr] at hj
        obtain ⟨pre, w1, g, w2, hts, hw1, hw2, hg, hgc, hcap⟩ :=
          reFirst_reAmount_sound t m cps rest hr
        refine ⟨pre, w1, g, w2, rest, hts, hw1, hw2, hg, hgc, ?_⟩
        have hj2 : some (jsParseInt (((capLookup 1 cps).getD []).filter
            (fun c => c ≠ ','))) = some j := hj
        rw [hcap] at hj2
        simp only [Option.getD_some, Option.some.injEq] at hj2
        exact hj2.symm
  · intro pre w1 g w2 post hw1 hw2 hg hgc
    have hassoc : pre ++ chars "금" ++ w1 ++ g ++ w2 ++ chars "원" ++ post =
        pre ++ (chars "금" ++ (w1 ++ (g ++ (w2 ++ (chars "원" ++ post))))) := by
      simp [List.append_assoc]
    rw [hassoc]
    have hlenGeum : (chars "금").length = 1 := by decide
    have hlenWon : (chars "원").length = 1 := by decide
    have hmatch : ∃ out, matchR
        ((chars "금" ++ (w1 ++ (g ++ (w2 ++ (chars "원" ++ post))))).length
          + 100)
        reAmount (chars "금" ++ (w1 ++ (g ++ (w2 ++ (chars "원" ++ post)))))
        [] (fun s1 c1 => some (s1, c1)) = some out := by
      refine ⟨(post, capInsert 1 g []),
        matchR_reAmount_complete w1 g w2 post []
          (fun s1 c1 => some (s1, c1)) (post, capInsert 1 g []) _ ?_
          hw1 hw2 hg hgc rfl⟩
      simp only [List.length_append, hlenGeum, hlenWon]
      omega
    obtain ⟨out2, hout2⟩ :=
      reFirst_some_of_matchR reAmount pre
        (chars "금" ++ (w1 ++ (g ++ (w2 ++ (chars "원" ++ post))))) hmatch
    obtain ⟨m, cps, rest⟩ := out2
    have hne : pre ++ (chars "금" ++ (w1 ++ (g ++ (w2 ++
        (chars "원" ++ post))))) ≠ [] := by
      simp [chars]
    refine ⟨jsParseInt (((capLookup 1 cps).getD []).filter
      (fun c => c ≠ ',')), ?_⟩
    rw [parseAmount, if_neg hne, hout2]

/-- C7 counterexample: "금 ,원" contains no digit at all, so under the
claim the parser should return no amount, yet it returns `NaN` (the comma
group is matched, stripped to the empty string, and `parseInt('')` is
`NaN`). -/
theorem c7_counterexample_comma_group_nan :
    parseAmount (chars "금 ,원") = some JsNum.nan ∧
    (chars "금 ,원").all (fun c => !c.isDigit) = true := by
  constructor
  · decide
  · decide

/-- C7 witness: both directions of the characterization at concrete
inputs — "금 1,000원" parses to the integer 1000. -/
theorem c7_witness :
    parseAmount (chars "금 1,000원") = some (JsNum.int 1000) ∧
    (∃ pre w1 g w2 post,
      chars "금 1,000원" =
        pre ++ chars "금" ++ w1 ++ g ++ w2 ++ chars "원" ++ post ∧
      (∀ x ∈ w1, jsWs x = true) ∧ (∀ x ∈ w2, jsWs x = true) ∧
      g ≠ [] ∧ (∀ x ∈ g, isDigitComma x = true) ∧
      JsNum.int 1000 = jsParseInt (g.filter (fun c => c ≠ ','))) := by
  have hp : parseAmount (chars "금 1,000원") = some (JsNum.int 1000) := by
    decide
  exact ⟨hp, c7_parseAmount_characterization.1 (chars "금 1,000원")
    (JsNum.int 1000) hp⟩
